import Mathlib

/-!
The inet address type of the DuckDB inet extension.

A shallow embedding of `src/extension/inet/ipaddress.cpp`: the value type
`IPAddress`, its constructors and builders, the text parser `TryParse` /
`FromString` and the formatter `ToString`, together with the C library
routines the file calls (`inet_pton`,
`inet_ntop`, modelled on the glibc sources `resolv/inet_pton.c` and
`resolv/inet_ntop.c`) and the host cast helper used for the mask suffix.

Texts are lists of characters (`String.data`); the 128-bit `hugeint_t address`
is kept as its 16 bytes in memory order, because the parser and the formatter
only ever touch it through `&address` as a byte buffer. The parser hands the
data pointer of the text to `inet_pton`, which reads a C string, so the
parser is given the memory that follows the text as well.
-/

namespace duckdb

/-! ## Data model -/

/-- The address family tag `IPAddressType`. -/
inductive IPAddressType where
  | IP_ADDRESS_INVALID
  | IP_ADDRESS_V4
  | IP_ADDRESS_V6
deriving DecidableEq

/-- The value type `IPAddress`: family tag, the 16 bytes of the `hugeint_t`
address in memory order, and the `uint16_t` mask. -/
structure IPAddress where
  type : IPAddressType
  address : List Nat
  mask : Nat
deriving DecidableEq

/-- Modelled from the spec: the constant `IPAddress::IPV4_DEFAULT_MASK` of
`ipaddress.hpp` (the header is not part of the sources); the spec gives 32. -/
def IPV4_DEFAULT_MASK : Nat := 32

/-- Modelled from the spec: the constant `IPAddress::IPV6_DEFAULT_MASK` of
`ipaddress.hpp` (the header is not part of the sources); the spec gives 128. -/
def IPV6_DEFAULT_MASK : Nat := 128

/-- Address families accepted by `inet_pton` / `inet_ntop`. -/
inductive AddressFamily where
  | AF_INET
  | AF_INET6
deriving DecidableEq

/-! ## C library: text to address (`inet_pton`) -/

/-- The C string that starts at a pointer: `data` is the memory from the
pointer on, and the string is what stands before the first NUL. A list
without a NUL stands for memory whose first NUL comes right after the listed
characters. -/
def c_str (data : List Char) : List Char :=
  data.takeWhile (fun ch => ch != Char.ofNat 0)

/-- The scanning loop of `inet_pton4`: `done` holds the octets already
finished (`tmp[0 .. tp)`), `cur` is `*tp`, `saw_digit` and `octets` are the
local flags of the C routine. -/
def inet_pton4_loop : List Char → List Nat → Nat → Bool → Nat → Option (List Nat)
  | [], done, cur, _, octets => if octets < 4 then none else some (done ++ [cur])
  | ch :: src, done, cur, saw_digit, octets =>
    if 48 ≤ ch.toNat ∧ ch.toNat ≤ 57 then
      let new := cur * 10 + (ch.toNat - 48)
      if saw_digit = true ∧ cur = 0 then none
      else if new > 255 then none
      else if saw_digit = false then
        if octets + 1 > 4 then none
        else inet_pton4_loop src done new true (octets + 1)
      else inet_pton4_loop src done new true octets
    else if ch = '.' ∧ saw_digit = true then
      if octets = 4 then none
      else inet_pton4_loop src (done ++ [cur]) 0 false octets
    else none

/-- The routine `inet_pton4`: strict dotted-decimal, four octets in 0..255, no
leading zeros; the result is the four address bytes in network order. -/
def inet_pton4 (src : List Char) : Option (List Nat) :=
  inet_pton4_loop src [] 0 false 0

/-- The helper `hex_digit_value`. -/
def hex_digit_value (ch : Char) : Option Nat :=
  if 48 ≤ ch.toNat ∧ ch.toNat ≤ 57 then some (ch.toNat - 48)
  else if 97 ≤ ch.toNat ∧ ch.toNat ≤ 102 then some (ch.toNat - 97 + 10)
  else if 65 ≤ ch.toNat ∧ ch.toNat ≤ 70 then some (ch.toNat - 65 + 10)
  else none

/-- State of the `inet_pton6` scan when the loop is left: the bytes written
so far (`tmp[0 .. tp)`), the position of a `::` (`colonp`), and the pending
hex group (`xdigits_seen`, `val`). -/
structure Pton6State where
  tp : List Nat
  colonp : Option Nat
  xdigits_seen : Nat
  val : Nat
deriving DecidableEq

/-- The scanning loop of `inet_pton6`; `curtok` is the text from the start of
the current group, used when an embedded dotted-decimal tail is found. -/
def inet_pton6_loop : List Char → List Char → Pton6State → Option Pton6State
  | [], _, st => some st
  | ch :: src, curtok, st =>
    match hex_digit_value ch with
    | some digit =>
      if st.xdigits_seen = 4 then none
      else
        let val := st.val * 16 + digit
        if val > 65535 then none
        else inet_pton6_loop src curtok
          { tp := st.tp, colonp := st.colonp, xdigits_seen := st.xdigits_seen + 1, val := val }
    | none =>
      if ch = ':' then
        if st.xdigits_seen = 0 then
          if st.colonp.isSome then none
          else inet_pton6_loop src src
            { tp := st.tp, colonp := some st.tp.length, xdigits_seen := 0, val := st.val }
        else if src = [] then none
        else if st.tp.length + 2 > 16 then none
        else inet_pton6_loop src src
          { tp := st.tp ++ [st.val / 256 % 256, st.val % 256], colonp := st.colonp,
            xdigits_seen := 0, val := 0 }
      else if ch = '.' ∧ st.tp.length + 4 ≤ 16 then
        match inet_pton4 curtok with
        | some b4 =>
          some { tp := st.tp ++ b4, colonp := st.colonp, xdigits_seen := 0, val := st.val }
        | none => none
      else none

/-- The tail of `inet_pton6` after the scan: flush a pending group, expand
`::` into zero bytes, and require exactly 16 bytes. -/
def inet_pton6_finish (st : Pton6State) : Option (List Nat) :=
  let flushed : Option (List Nat) :=
    if st.xdigits_seen > 0 then
      if st.tp.length + 2 > 16 then none
      else some (st.tp ++ [st.val / 256 % 256, st.val % 256])
    else some st.tp
  match flushed with
  | none => none
  | some tp =>
    match st.colonp with
    | some cp =>
      if tp.length = 16 then none
      else some (tp.take cp ++ List.replicate (16 - tp.length) 0 ++ tp.drop cp)
    | none => if tp.length ≠ 16 then none else some tp

/-- The routine `inet_pton6`: colon-hex text with at most one `::` and an
optional dotted-decimal tail; the result is the 16 address bytes. -/
def inet_pton6 (src : List Char) : Option (List Nat) :=
  match src with
  | [] => none
  | ch :: rest =>
    let start : Option (List Char) :=
      if ch = ':' then
        match rest with
        | [] => none
        | ch2 :: _ => if ch2 ≠ ':' then none else some rest
      else some src
    match start with
    | none => none
    | some s =>
      match inet_pton6_loop s s { tp := [], colonp := none, xdigits_seen := 0, val := 0 } with
      | none => none
      | some st => inet_pton6_finish st

/-- The C function `inet_pton(af, src, dst)`: reads `src` as a C string and,
on success, overwrites the first 4 (AF_INET) or 16 (AF_INET6) bytes of `dst`;
returns 1 on success and 0 (leaving `dst` alone) when the text is not a valid
address of the family. -/
def inet_pton (af : AddressFamily) (src : List Char) (dst : List Nat) : Int × List Nat :=
  match af with
  | AddressFamily.AF_INET =>
    match inet_pton4 (c_str src) with
    | some b => (1, b ++ dst.drop 4)
    | none => (0, dst)
  | AddressFamily.AF_INET6 =>
    match inet_pton6 (c_str src) with
    | some b => (1, b ++ dst.drop 16)
    | none => (0, dst)

/-! ## C library: address to text (`inet_ntop`) -/

/-- Byte `i` of a buffer, as an `unsigned char`. -/
def byte_at (src : List Nat) (i : Nat) : Nat := src.getD i 0 % 256

/-- The conversion `%u` of `sprintf` (also `std::to_string` on an unsigned
value): decimal digits, no padding. -/
def fmt_u (n : Nat) : List Char := Nat.toDigits 10 n

/-- The conversion `%x` of `sprintf`: lowercase hexadecimal, no padding. -/
def fmt_x (n : Nat) : List Char := Nat.toDigits 16 n

/-- The routine `inet_ntop4`: `"%u.%u.%u.%u"` of the first four bytes. -/
def inet_ntop4 (src : List Nat) : List Char :=
  fmt_u (byte_at src 0) ++ '.' :: fmt_u (byte_at src 1) ++ '.' :: fmt_u (byte_at src 2)
    ++ '.' :: fmt_u (byte_at src 3)

/-- The eight 16-bit groups of a 16-byte address,
`words[i] = (src[2i] << 8) | src[2i+1]`. -/
def words_of (src : List Nat) : List Nat :=
  (List.range 8).map (fun i => byte_at src (2 * i) * 256 + byte_at src (2 * i + 1))

/-- A run of zero groups, `struct { int base, len; }`; `base = -1` means no
run. -/
structure Run where
  base : Int
  len : Int
deriving DecidableEq

/-- The first loop of `inet_ntop6`, which looks for the longest run of zero
groups: the remaining words, the index `i`, and the locals `best` and `cur`. -/
def inet_ntop6_scan : List Nat → Nat → Run → Run → Run × Run
  | [], _, best, cur => (best, cur)
  | w :: ws, i, best, cur =>
    if w = 0 then
      if cur.base = -1 then inet_ntop6_scan ws (i + 1) best { base := i, len := 1 }
      else inet_ntop6_scan ws (i + 1) best { base := cur.base, len := cur.len + 1 }
    else if cur.base ≠ -1 then
      inet_ntop6_scan ws (i + 1)
        (if best.base = -1 ∨ cur.len > best.len then cur else best)
        { base := -1, len := cur.len }
    else inet_ntop6_scan ws (i + 1) best cur

/-- The run `inet_ntop6` compresses to `::`: the longest run of zero groups
(the first one among equals), dropped when shorter than two groups. -/
def inet_ntop6_best (words : List Nat) : Run :=
  let r := inet_ntop6_scan words 0 { base := -1, len := 0 } { base := -1, len := 0 }
  let best := if r.2.base ≠ -1 then
      (if r.1.base = -1 ∨ r.2.len > r.1.len then r.2 else r.1)
    else r.1
  if best.base ≠ -1 ∧ best.len < 2 then { base := -1, len := best.len } else best

/-- The formatting loop of `inet_ntop6`, as the text appended from group `i`
onwards; `src` and `words` are the whole address. -/
def inet_ntop6_fmt (src : List Nat) (words : List Nat) (best : Run) :
    List Nat → Nat → List Char
  | [], _ => []
  | w :: rest, i =>
    if best.base ≠ -1 ∧ (i : Int) ≥ best.base ∧ (i : Int) < best.base + best.len then
      (if (i : Int) = best.base then [':'] else []) ++ inet_ntop6_fmt src words best rest (i + 1)
    else
      (if i ≠ 0 then [':'] else []) ++
        (if i = 6 ∧ best.base = 0 ∧
            (best.len = 6 ∨ (best.len = 5 ∧ words.getD 5 0 = 65535)) then
          inet_ntop4 (src.drop 12)
        else fmt_x w ++ inet_ntop6_fmt src words best rest (i + 1))

/-- The routine `inet_ntop6`: lowercase hex groups, the best zero run written
as `::`, and a dotted-decimal tail for IPv4-compatible and IPv4-mapped
addresses. -/
def inet_ntop6 (src : List Nat) : List Char :=
  let words := words_of src
  let best := inet_ntop6_best words
  inet_ntop6_fmt src words best words 0 ++
    (if best.base ≠ -1 ∧ best.base + best.len = 8 then [':'] else [])

/-- The C function `inet_ntop(af, src, buffer, INET6_ADDRSTRLEN)`; the buffer
of 46 characters holds every result, so the call cannot fail. -/
def inet_ntop (af : AddressFamily) (src : List Nat) : List Char :=
  match af with
  | AddressFamily.AF_INET => inet_ntop4 src
  | AddressFamily.AF_INET6 => inet_ntop6 src

/-! ## Host helpers -/

/-- Modelled from the spec: the host cast `TryCast::Operation<string_t, uint8_t>`
(declared in `cast_operators.hpp`, which is not part of the sources), the
"parse unsigned integer with range check" primitive: it accepts a non-empty
run of ASCII decimal digits whose value fits 8 bits. `TryParse` only ever
hands it a (possibly empty) run of decimal digits. -/
def TryCast_uint8 (text : List Char) : Option Nat :=
  if text = [] then none
  else if text.all (fun ch => decide (48 ≤ ch.toNat ∧ ch.toNat ≤ 57)) then
    let value := text.foldl (fun acc ch => acc * 10 + (ch.toNat - 48)) 0
    if value ≤ 255 then some value else none
  else none

/-- Modelled from the spec: `HandleCastError::AssignError` (declared in
`cast_helpers.hpp`, which is not part of the sources) surfaces the error
string to the caller through the `error_message` out-parameter. -/
def AssignError (e : String) : Option String := some e

/-! ## The unit under verification -/

/-- What a call of `TryParse` leaves behind: the returned flag, the
caller's `result` object after the call, and the error message handed to the
caller (if any). -/
structure TryParseResult where
  ret : Bool
  result : IPAddress
  error_message : Option String
deriving DecidableEq

/-- The default constructor `IPAddress::IPAddress()`: it sets the family tag
only; `address` and `mask` keep whatever the storage held. -/
def IPAddress.IPAddress_default (address : List Nat) (mask : Nat) : IPAddress :=
  { type := IPAddressType.IP_ADDRESS_INVALID, address := address, mask := mask }

/-- The helper `IPAddressError`: builds the message and returns `false`; the
caller's `result` is passed through as it stands. -/
def IPAddressError (input : String) (result : IPAddress) (error : String) : TryParseResult :=
  let e := "Failed to convert string \"" ++ input ++ "\" to inet: " ++ error
  { ret := false, result := result, error_message := AssignError e }

/-- The scan `for (c = 0; c < size; c++) if (data[c] == '/') break;`: the
index of the first `/`, or the size when there is none. -/
def find_slash : List Char → Nat
  | [] => 0
  | ch :: rest => if ch = '/' then 0 else find_slash rest + 1

/-- The scan `while (c < size && data[c] >= '0' && data[c] <= '9') c++`: the
number of leading decimal digits. -/
def skip_digits : List Char → Nat
  | [] => 0
  | ch :: rest => if 48 ≤ ch.toNat ∧ ch.toNat ≤ 57 then skip_digits rest + 1 else 0

/-- Lines 45-68 of `IPAddress::TryParse`, entered once the address step has
filled `result`: look for a `/` and, when there is one, read the mask. -/
def IPAddress.TryParse_mask (input : String) (result : IPAddress) : TryParseResult :=
  let data := input.data
  let size := data.length
  let c := find_slash data
  if c = size then
    { ret := true, result := result, error_message := none }
  else
    let start := c + 1
    let c := start + skip_digits (data.drop start)
    match TryCast_uint8 ((data.drop start).take (c - start)) with
    | none => IPAddressError input result "Faied to parse IP network mask"
    | some mask =>
      if mask > result.mask then
        IPAddressError input result
          "Expected a number between 0-32 for IPv4 and 0-128 for IPv6"
      else
        { ret := true, result := { result with mask := mask }, error_message := none }

/-- The parser `IPAddress::TryParse(input, result, error_message)`: `result`
is the caller's object before the call, and `after` is the memory that
follows the `size` bytes of the text. `input.GetData()` is a bare pointer, and
`inet_pton` reads from it as a C string, with no regard to `size`: what it
sees is the text together with `after`, up to the first NUL. The loops of
lines 45 to 59 and the cast of line 61 are bounded by `size` and see the text
only. A read that finds no NUL before the end of the mapped memory is not
modelled. -/
def IPAddress.TryParse (input : String) (after : List Char) (result : IPAddress) :
    TryParseResult :=
  let data := input.data ++ after
  let r4 := inet_pton AddressFamily.AF_INET data result.address
  if r4.1 ≠ 0 then
    IPAddress.TryParse_mask input
      { type := IPAddressType.IP_ADDRESS_V4, address := r4.2, mask := IPV4_DEFAULT_MASK }
  else
    let r6 := inet_pton AddressFamily.AF_INET6 data r4.2
    if r6.1 ≠ 0 then
      IPAddress.TryParse_mask input
        { type := IPAddressType.IP_ADDRESS_V6, address := r6.2, mask := IPV6_DEFAULT_MASK }
    else
      IPAddressError input { result with address := r6.2 } "Failed to parse IP address"

/-- The formatter `IPAddress::ToString()`. -/
def IPAddress.ToString (self : IPAddress) : String :=
  let buffer := inet_ntop
    (if self.type = IPAddressType.IP_ADDRESS_V4 then AddressFamily.AF_INET
     else AddressFamily.AF_INET6) self.address
  let result := String.mk buffer
  if (self.type = IPAddressType.IP_ADDRESS_V4 ∧ self.mask ≠ IPV4_DEFAULT_MASK) ∨
      (self.type = IPAddressType.IP_ADDRESS_V6 ∧ self.mask ≠ IPV6_DEFAULT_MASK) then
    result ++ ("/" ++ String.mk (fmt_u self.mask))
  else result

/-- The throwing parser `IPAddress::FromString(input)`: `result` is default
constructed, so its `address` and `mask` start with the indeterminate content
`address0`, `mask0` of the storage; `after` is the memory that follows the
text, as for `TryParse`; a failed parse throws a `ConversionException`
carrying the message, modelled as `Except.error`. -/
def IPAddress.FromString (input : String) (after : List Char) (address0 : List Nat)
    (mask0 : Nat) : Except String IPAddress :=
  let result := IPAddress.IPAddress_default address0 mask0
  let r := IPAddress.TryParse input after result
  if r.ret = false then Except.error (r.error_message.getD "")
  else Except.ok r.result

/-! ## Construction from raw parts -/

/-- Modelled from the spec: the type `hugeint_t` (declared in `hugeint.hpp`,
which is not part of the sources) is the 128-bit signed integer of the spec's
data model, and the implicit conversion of an integer argument to it keeps the
value. Its 16 bytes are taken in two's complement, least significant byte
first. -/
def hugeint_t_of_int (value : Int) : List Nat :=
  let bits : Nat := (value % ((2 ^ 128 : Nat) : Int)).toNat
  (List.range 16).map (fun i => bits / 256 ^ i % 256)

/-- The 128 bits of a `hugeint_t` read as an unsigned number (byte 0 is the
least significant). -/
def hugeint_bits (address : List Nat) : Nat :=
  ((List.range 16).map (fun i => byte_at address i * 256 ^ i)).sum

/-- The value of a `hugeint_t` as a signed 128-bit integer. -/
def hugeint_value (address : List Nat) : Int :=
  if hugeint_bits address < 2 ^ 127 then (hugeint_bits address : Int)
  else (hugeint_bits address : Int) - ((2 ^ 128 : Nat) : Int)

/-- The constructor `IPAddress::IPAddress(type, address, mask)`. -/
def IPAddress.IPAddress_parts (type : IPAddressType) (address : List Nat) (mask : Nat) :
    IPAddress :=
  { type := type, address := address, mask := mask }

/-- The builder `IPAddress::FromIPv4(int32_t address, uint16_t mask)`: the
`int32_t` argument is converted to the `hugeint_t` parameter of the
constructor. -/
def IPAddress.FromIPv4 (address : Int) (mask : Nat) : IPAddress :=
  IPAddress.IPAddress_parts IPAddressType.IP_ADDRESS_V4 (hugeint_t_of_int address) mask

/-- The builder `IPAddress::FromIPv6(hugeint_t address, uint16_t mask)`. -/
def IPAddress.FromIPv6 (address : List Nat) (mask : Nat) : IPAddress :=
  IPAddress.IPAddress_parts IPAddressType.IP_ADDRESS_V6 address mask

/-! ## The canonical compressed IPv6 text, following the spec -/

/-- Spec form: groups in lowercase hexadecimal without leading zeros, joined
by `:`. -/
def spec_hex_groups : List Nat → List Char
  | [] => []
  | [w] => fmt_x w
  | w :: ws => fmt_x w ++ ':' :: spec_hex_groups ws

/-- Number of all-zero groups at the head of a list of groups. -/
def zero_run_length : List Nat → Nat
  | [] => 0
  | w :: ws => if w = 0 then zero_run_length ws + 1 else 0

/-- Spec form: start and length of the longest run of consecutive all-zero
groups, the first one among equals; a single zero group is not a run. -/
def spec_longest_zero_run (words : List Nat) : Option (Nat × Nat) :=
  let candidates := (List.range words.length).map
    (fun i => (i, zero_run_length (words.drop i)))
  let best := candidates.foldl (fun acc c => if c.2 > acc.2 then c else acc) (0, 0)
  if best.2 ≥ 2 then some best else none

/-- Spec form of the canonical compressed text of eight groups: lowercase
hex, no leading zeros inside a group, the longest run of consecutive all-zero
groups replaced by `::`. -/
def spec_canonical_ipv6 (words : List Nat) : List Char :=
  match spec_longest_zero_run words with
  | none => spec_hex_groups words
  | some (base, len) =>
    spec_hex_groups (words.take base) ++ [':', ':'] ++ spec_hex_groups (words.drop (base + len))

/-! ## Predicates used in the proofs -/

/-- A run is either absent or a non-empty block of zero groups of `all`
ending at or before `upto`. -/
def RunOk (all : List Nat) (r : Run) (upto : Nat) : Prop :=
  r.base = -1 ∨ (0 ≤ r.base ∧ 1 ≤ r.len ∧ r.base + r.len ≤ upto ∧
    ∀ j : Nat, r.base ≤ j → (j : Int) < r.base + r.len → all.getD j 0 = 0)

/-- The current run, when present, ends exactly at the scan position. -/
def CurOk (all : List Nat) (r : Run) (i : Nat) : Prop :=
  r.base = -1 ∨ (0 ≤ r.base ∧ 1 ≤ r.len ∧ r.base + r.len = i ∧
    ∀ j : Nat, r.base ≤ j → (j : Int) < r.base + r.len → all.getD j 0 = 0)

/-- The characters an address text may contain: hexadecimal digits, `:` and `.`. -/
def address_char (ch : Char) : Prop :=
  (hex_digit_value ch).isSome ∨ ch = ':' ∨ ch = '.'

/-- The zero pattern of a group: 0 for an all-zero group, 1 otherwise. -/
def zero_flag (w : Nat) : Nat := if w = 0 then 0 else 1

/-- The run of `inet_ntop6` as an optional pair, `base = -1` meaning none. -/
def run_of (r : Run) : Option (Nat × Nat) :=
  if r.base = -1 then none else some (r.base.toNat, r.len.toNat)

/-! ## Basic facts about the C library routines -/

theorem inet_pton4_loop_chars (src : List Char) :
    ∀ (done : List Nat) (cur : Nat) (sd : Bool) (oc : Nat) (b : List Nat),
      inet_pton4_loop src done cur sd oc = some b →
      ∀ ch ∈ src, (48 ≤ ch.toNat ∧ ch.toNat ≤ 57) ∨ ch = '.' := by
  induction src with
  | nil => intro _ _ _ _ _ _ ch hch; simp at hch
  | cons c rest ih =>
    intro done cur sd oc b h ch hch
    rw [inet_pton4_loop] at h
    by_cases hd : 48 ≤ c.toNat ∧ c.toNat ≤ 57
    · rw [if_pos hd] at h
      rcases List.mem_cons.mp hch with rfl | hm
      · exact Or.inl hd
      · dsimp only at h
        split at h
        · simp at h
        · split at h
          · simp at h
          · split at h
            · split at h
              · simp at h
              · exact ih _ _ _ _ _ h ch hm
            · exact ih _ _ _ _ _ h ch hm
    · rw [if_neg hd] at h
      split at h
      · rename_i hdot
        rcases List.mem_cons.mp hch with rfl | hm
        · exact Or.inr hdot.1
        · split at h
          · simp at h
          · exact ih _ _ _ _ _ h ch hm
      · simp at h

theorem inet_pton4_loop_shape (src : List Char) :
    ∀ (done : List Nat) (cur : Nat) (sd : Bool) (oc : Nat) (b : List Nat),
      inet_pton4_loop src done cur sd oc = some b →
      (sd = true → oc = done.length + 1 ∧ oc ≤ 4) →
      (sd = false → oc = done.length ∧ oc < 4) →
      cur ≤ 255 → (∀ x ∈ done, x ≤ 255) →
      b.length = 4 ∧ ∀ x ∈ b, x ≤ 255 := by
  induction src with
  | nil =>
    intro done cur sd oc b h h1 h2 hc hd
    simp only [inet_pton4_loop] at h
    split at h
    · simp at h
    · rename_i hoc
      cases sd with
      | false => have := h2 rfl; omega
      | true =>
        have := h1 rfl
        simp only [Option.some.injEq] at h
        subst h
        refine ⟨by simp; omega, ?_⟩
        intro x hx
        rcases List.mem_append.mp hx with hx | hx
        · exact hd x hx
        · simp at hx; omega
  | cons c rest ih =>
    intro done cur sd oc b h h1 h2 hc hd
    rw [inet_pton4_loop] at h
    by_cases hdg : 48 ≤ c.toNat ∧ c.toNat ≤ 57
    · rw [if_pos hdg] at h
      dsimp only at h
      split at h
      · simp at h
      · split at h
        · simp at h
        · rename_i hnew
          split at h
          · rename_i hsd
            split at h
            · simp at h
            · rename_i hoc
              have := h2 hsd
              exact ih _ _ _ _ _ h (fun _ => ⟨by omega, by omega⟩) (fun hf => by simp at hf)
                (by omega) hd
          · rename_i hsd
            have hsd1 : sd = true := by cases sd <;> simp_all
            have := h1 hsd1
            exact ih _ _ _ _ _ h (fun _ => this) (fun hf => by simp at hf) (by omega) hd
    · rw [if_neg hdg] at h
      split at h
      · rename_i hdot
        split at h
        · simp at h
        · rename_i hoc
          have := h1 hdot.2
          refine ih _ _ _ _ _ h (fun hf => by simp at hf)
            (fun _ => ⟨by simp; omega, by omega⟩) (by omega) ?_
          intro x hx
          rcases List.mem_append.mp hx with hx | hx
          · exact hd x hx
          · simp at hx; omega
      · simp at h

theorem inet_pton4_shape (src : List Char) (b : List Nat) (h : inet_pton4 src = some b) :
    b.length = 4 ∧ ∀ x ∈ b, x ≤ 255 :=
  inet_pton4_loop_shape src [] 0 false 0 b h (fun hf => by simp at hf)
    (fun _ => ⟨rfl, by decide⟩) (by decide) (fun x hx => by simp at hx)

/-- Without a colon the scan of `inet_pton6` never moves `colonp` and writes
at most one dotted-decimal tail. -/
theorem inet_pton6_loop_no_colon (src : List Char) :
    ∀ (curtok : List Char) (st st2 : Pton6State),
      (∀ ch ∈ src, ch ≠ ':') →
      inet_pton6_loop src curtok st = some st2 →
      st2.colonp = st.colonp ∧
        (st2.tp = st.tp ∨ (st2.xdigits_seen = 0 ∧ st2.tp.length = st.tp.length + 4)) := by
  induction src with
  | nil =>
    intro curtok st st2 _ h
    simp only [inet_pton6_loop, Option.some.injEq] at h
    subst h
    exact ⟨rfl, Or.inl rfl⟩
  | cons c rest ih =>
    intro curtok st st2 hc h
    have hc1 : c ≠ ':' := hc c (by simp)
    have hc2 : ∀ ch ∈ rest, ch ≠ ':' := fun ch hm => hc ch (by simp [hm])
    rw [inet_pton6_loop] at h
    split at h
    · split at h
      · simp at h
      · dsimp only at h
        split at h
        · simp at h
        · have := ih _ _ _ hc2 h
          simpa using this
    · rw [if_neg hc1] at h
      split at h
      · split at h
        · rename_i b4 hb4
          simp only [Option.some.injEq] at h
          subst h
          refine ⟨rfl, Or.inr ⟨rfl, ?_⟩⟩
          simp [(inet_pton4_shape _ _ hb4).1]
        · simp at h
      · simp at h

theorem inet_pton6_no_colon (src : List Char) (hc : ∀ ch ∈ src, ch ≠ ':') :
    inet_pton6 src = none := by
  cases src with
  | nil => rfl
  | cons c rest =>
    have hc1 : c ≠ ':' := hc c (by simp)
    simp only [inet_pton6, if_neg hc1]
    cases hl : inet_pton6_loop (c :: rest) (c :: rest)
        { tp := [], colonp := none, xdigits_seen := 0, val := 0 } with
    | none => rfl
    | some st =>
      obtain ⟨h1, h2⟩ := inet_pton6_loop_no_colon _ _ _ _ hc hl
      simp only at h1 h2
      simp only [inet_pton6_finish, h1]
      rcases h2 with h2 | ⟨h2, h3⟩
      · rw [h2]
        by_cases hx : st.xdigits_seen > 0 <;> simp [hx]
      · simp [h2, h3]

theorem inet_pton4_no_colon (src : List Char) (b : List Nat) (h : inet_pton4 src = some b) :
    ∀ ch ∈ src, ch ≠ ':' := by
  intro ch hch e
  subst e
  rcases inet_pton4_loop_chars src _ _ _ _ _ h _ hch with hd | hd
  · revert hd; decide
  · revert hd; decide

theorem inet_pton_disjoint (src : List Char) (b : List Nat) (h : inet_pton4 src = some b) :
    inet_pton6 src = none :=
  inet_pton6_no_colon src (inet_pton4_no_colon src b h)

theorem find_slash_no_slash (l : List Char) (h : '/' ∉ l) : find_slash l = l.length := by
  induction l with
  | nil => rfl
  | cons ch rest ih =>
    have h1 : ch ≠ '/' := fun e => h (by simp [e])
    have h2 : '/' ∉ rest := fun e => h (by simp [e])
    simp [find_slash, h1, ih h2]

theorem TryParse_mask_no_slash (input : String) (result : IPAddress) (h : '/' ∉ input.data) :
    IPAddress.TryParse_mask input result =
      { ret := true, result := result, error_message := none } := by
  simp [IPAddress.TryParse_mask, find_slash_no_slash _ h]

theorem inet_ntop4_cons (a b c d : Nat) (rest : List Nat) :
    inet_ntop4 (a :: b :: c :: d :: rest) =
      fmt_u (a % 256) ++ '.' :: fmt_u (b % 256) ++ '.' :: fmt_u (c % 256) ++
        '.' :: fmt_u (d % 256) := by
  simp [inet_ntop4, byte_at]

theorem ToString_v4 (address : List Nat) (mask : Nat) :
    IPAddress.ToString { type := IPAddressType.IP_ADDRESS_V4, address := address, mask := mask } =
      if mask ≠ 32 then String.mk (inet_ntop4 address) ++ ("/" ++ String.mk (fmt_u mask))
      else String.mk (inet_ntop4 address) := by
  simp [IPAddress.ToString, inet_ntop, IPV4_DEFAULT_MASK]

theorem ToString_v6 (address : List Nat) (mask : Nat) :
    IPAddress.ToString { type := IPAddressType.IP_ADDRESS_V6, address := address, mask := mask } =
      if mask ≠ 128 then String.mk (inet_ntop6 address) ++ ("/" ++ String.mk (fmt_u mask))
      else String.mk (inet_ntop6 address) := by
  simp [IPAddress.ToString, inet_ntop, IPV6_DEFAULT_MASK]

/-! ## Digits -/

theorem toDigitsCore_append (b : Nat) : ∀ (fuel n : Nat) (ds : List Char),
    Nat.toDigitsCore b fuel n ds = Nat.toDigitsCore b fuel n [] ++ ds := by
  intro fuel
  induction fuel with
  | zero => intro n ds; simp [Nat.toDigitsCore]
  | succ f ih =>
    intro n ds
    simp only [Nat.toDigitsCore]
    by_cases h : n / b = 0
    · simp [h]
    · simp only [h, if_false]
      rw [ih (n / b) ((n % b).digitChar :: ds), ih (n / b) [(n % b).digitChar]]
      simp

theorem toDigitsCore_fuel (b : Nat) (hb : 2 ≤ b) : ∀ (n f1 f2 : Nat) (ds : List Char),
    n < f1 → n < f2 → Nat.toDigitsCore b f1 n ds = Nat.toDigitsCore b f2 n ds := by
  intro n
  induction n using Nat.strong_induction_on with
  | _ n ih =>
    intro f1 f2 ds h1 h2
    obtain ⟨g1, rfl⟩ : ∃ g, f1 = g + 1 := ⟨f1 - 1, by omega⟩
    obtain ⟨g2, rfl⟩ : ∃ g, f2 = g + 1 := ⟨f2 - 1, by omega⟩
    simp only [Nat.toDigitsCore]
    by_cases h : n / b = 0
    · simp [h]
    · simp only [h, if_false]
      have hn : 0 < n := by
        rcases Nat.eq_zero_or_pos n with h0 | h0
        · subst h0; simp at h
        · exact h0
      have hlt : n / b < n := Nat.div_lt_self hn hb
      exact ih (n / b) hlt g1 g2 _ (by omega) (by omega)

theorem toDigits_lt (b n : Nat) (h : n < b) : Nat.toDigits b n = [n.digitChar] := by
  simp [Nat.toDigits, Nat.toDigitsCore, Nat.div_eq_of_lt h, Nat.mod_eq_of_lt h]

theorem toDigits_ge (b n : Nat) (hb : 2 ≤ b) (h : b ≤ n) :
    Nat.toDigits b n = Nat.toDigits b (n / b) ++ [(n % b).digitChar] := by
  have hdiv : n / b ≠ 0 := by
    have : 0 < n / b := Nat.div_pos h (by omega)
    omega
  have hlt : n / b < n := Nat.div_lt_self (by omega) hb
  have e : Nat.toDigits b n = Nat.toDigitsCore b n (n / b) [(n % b).digitChar] := by
    show Nat.toDigitsCore b (n + 1) n [] = _
    rw [Nat.toDigitsCore]
    simp [hdiv]
  rw [e, toDigitsCore_append, toDigitsCore_fuel b hb (n / b) n (n / b + 1) [] hlt (by omega)]
  rfl

theorem fmt_u_byte (n : Nat) (h : n < 256) :
    (n < 10 ∧ fmt_u n = [n.digitChar]) ∨
    (10 ≤ n ∧ n < 100 ∧ fmt_u n = [(n / 10).digitChar, (n % 10).digitChar]) ∨
    (100 ≤ n ∧ fmt_u n = [(n / 100).digitChar, (n / 10 % 10).digitChar, (n % 10).digitChar]) := by
  by_cases h1 : n < 10
  · exact Or.inl ⟨h1, toDigits_lt 10 n h1⟩
  · by_cases h2 : n < 100
    · refine Or.inr (Or.inl ⟨by omega, h2, ?_⟩)
      rw [fmt_u, toDigits_ge 10 n (by decide) (by omega), toDigits_lt 10 (n / 10) (by omega)]
      rfl
    · refine Or.inr (Or.inr ⟨by omega, ?_⟩)
      rw [fmt_u, toDigits_ge 10 n (by decide) (by omega),
        toDigits_ge 10 (n / 10) (by decide) (by omega),
        toDigits_lt 10 (n / 10 / 10) (by omega)]
      have : n / 10 / 10 = n / 100 := by omega
      rw [this]
      rfl

theorem fmt_x_word (n : Nat) (h : n < 65536) :
    (n < 16 ∧ fmt_x n = [n.digitChar]) ∨
    (16 ≤ n ∧ n < 256 ∧ fmt_x n = [(n / 16).digitChar, (n % 16).digitChar]) ∨
    (256 ≤ n ∧ n < 4096 ∧
      fmt_x n = [(n / 256).digitChar, (n / 16 % 16).digitChar, (n % 16).digitChar]) ∨
    (4096 ≤ n ∧ fmt_x n = [(n / 4096).digitChar, (n / 256 % 16).digitChar,
      (n / 16 % 16).digitChar, (n % 16).digitChar]) := by
  by_cases h1 : n < 16
  · exact Or.inl ⟨h1, toDigits_lt 16 n h1⟩
  · by_cases h2 : n < 256
    · refine Or.inr (Or.inl ⟨by omega, h2, ?_⟩)
      rw [fmt_x, toDigits_ge 16 n (by decide) (by omega), toDigits_lt 16 (n / 16) (by omega)]
      rfl
    · by_cases h3 : n < 4096
      · refine Or.inr (Or.inr (Or.inl ⟨by omega, h3, ?_⟩))
        rw [fmt_x, toDigits_ge 16 n (by decide) (by omega),
          toDigits_ge 16 (n / 16) (by decide) (by omega),
          toDigits_lt 16 (n / 16 / 16) (by omega)]
        have : n / 16 / 16 = n / 256 := by omega
        rw [this]
        rfl
      · refine Or.inr (Or.inr (Or.inr ⟨by omega, ?_⟩))
        rw [fmt_x, toDigits_ge 16 n (by decide) (by omega),
          toDigits_ge 16 (n / 16) (by decide) (by omega),
          toDigits_ge 16 (n / 16 / 16) (by decide) (by omega),
          toDigits_lt 16 (n / 16 / 16 / 16) (by omega)]
        have e1 : n / 16 / 16 = n / 256 := by omega
        have e2 : n / 16 / 16 / 16 = n / 4096 := by omega
        rw [e2, e1]
        rfl

/-- Facts about the digit characters below 16. -/
theorem digitChar_facts (d : Nat) (h : d < 16) :
    hex_digit_value d.digitChar = some d ∧ d.digitChar ≠ ':' ∧ d.digitChar ≠ '.' ∧
    d.digitChar ≠ '/' ∧ d.digitChar ≠ Char.ofNat 0 ∧
    (d < 10 → 48 ≤ d.digitChar.toNat ∧ d.digitChar.toNat ≤ 57 ∧ d.digitChar.toNat - 48 = d) := by
  interval_cases d <;> decide

/-! ## Round trip of the C library routines -/

theorem pton4_first_digit (d : Nat) (hd : d < 10) (rest : List Char) (done : List Nat)
    (oc : Nat) (hoc : oc < 4) :
    inet_pton4_loop (d.digitChar :: rest) done 0 false oc =
      inet_pton4_loop rest done d true (oc + 1) := by
  obtain ⟨_, _, _, _, _, h10⟩ := digitChar_facts d (by omega)
  obtain ⟨h1, h2, h3⟩ := h10 hd
  have g1 : ¬ 255 < d := by omega
  have g2 : ¬ 4 < oc + 1 := by omega
  simp [inet_pton4_loop, h1, h2, h3, g1, g2]

theorem pton4_next_digit (d : Nat) (hd : d < 10) (rest : List Char) (done : List Nat)
    (cur oc : Nat) (hcur : cur ≠ 0) (hnew : cur * 10 + d ≤ 255) :
    inet_pton4_loop (d.digitChar :: rest) done cur true oc =
      inet_pton4_loop rest done (cur * 10 + d) true oc := by
  obtain ⟨_, _, _, _, _, h10⟩ := digitChar_facts d (by omega)
  obtain ⟨h1, h2, h3⟩ := h10 hd
  have g1 : ¬ 255 < cur * 10 + d := by omega
  simp [inet_pton4_loop, h1, h2, h3, g1, hcur]

theorem pton4_octet (a : Nat) (ha : a < 256) (rest : List Char) (done : List Nat)
    (oc : Nat) (hoc : oc < 4) :
    inet_pton4_loop (fmt_u a ++ rest) done 0 false oc =
      inet_pton4_loop rest done a true (oc + 1) := by
  rcases fmt_u_byte a ha with ⟨h1, e⟩ | ⟨h1, h2, e⟩ | ⟨h1, e⟩
  · rw [e, List.singleton_append, pton4_first_digit a h1 _ _ _ hoc]
  · rw [e]
    simp only [List.cons_append, List.nil_append]
    rw [pton4_first_digit _ (by omega) _ _ _ hoc,
      pton4_next_digit _ (by omega) _ _ _ _ (by omega) (by omega)]
    congr 1
    omega
  · rw [e]
    simp only [List.cons_append, List.nil_append]
    rw [pton4_first_digit _ (by omega) _ _ _ hoc,
      pton4_next_digit _ (by omega) _ _ _ _ (by omega) (by omega),
      pton4_next_digit _ (by omega) _ _ _ _ (by omega) (by omega)]
    congr 1
    omega

theorem pton4_dot (rest : List Char) (done : List Nat) (cur oc : Nat) (hoc : oc ≠ 4) :
    inet_pton4_loop ('.' :: rest) done cur true oc =
      inet_pton4_loop rest (done ++ [cur]) 0 false oc := by
  simp [inet_pton4_loop, hoc]

/-- The dotted-decimal text of four bytes. -/
theorem inet_pton4_dotted (a b c d : Nat) (ha : a < 256) (hb : b < 256) (hc : c < 256)
    (hd : d < 256) :
    inet_pton4 (fmt_u a ++ '.' :: fmt_u b ++ '.' :: fmt_u c ++ '.' :: fmt_u d) =
      some [a, b, c, d] := by
  have e : fmt_u a ++ '.' :: fmt_u b ++ '.' :: fmt_u c ++ '.' :: fmt_u d =
      fmt_u a ++ ('.' :: (fmt_u b ++ ('.' :: (fmt_u c ++ ('.' :: (fmt_u d ++ [])))))) := by
    simp
  rw [e, inet_pton4, pton4_octet a ha _ _ _ (by decide), pton4_dot _ _ _ _ (by decide),
    pton4_octet b hb _ _ _ (by decide), pton4_dot _ _ _ _ (by decide),
    pton4_octet c hc _ _ _ (by decide), pton4_dot _ _ _ _ (by decide),
    pton4_octet d hd _ _ _ (by decide)]
  rfl

theorem byte_at_lt (src : List Nat) (i : Nat) : byte_at src i < 256 :=
  Nat.mod_lt _ (by decide)

theorem inet_pton4_inet_ntop4 (src : List Nat) :
    inet_pton4 (inet_ntop4 src) =
      some [byte_at src 0, byte_at src 1, byte_at src 2, byte_at src 3] :=
  inet_pton4_dotted _ _ _ _ (byte_at_lt _ _) (byte_at_lt _ _) (byte_at_lt _ _) (byte_at_lt _ _)

theorem RunOk_mono (all : List Nat) (r : Run) (i k : Nat) (hik : i ≤ k)
    (h : RunOk all r i) : RunOk all r k := by
  rcases h with h | ⟨h1, h2, h3, h4⟩
  · exact Or.inl h
  · exact Or.inr ⟨h1, h2, by omega, h4⟩

theorem CurOk_RunOk (all : List Nat) (r : Run) (i : Nat) (h : CurOk all r i) :
    RunOk all r i := by
  rcases h with h | ⟨h1, h2, h3, h4⟩
  · exact Or.inl h
  · exact Or.inr ⟨h1, h2, by omega, h4⟩

theorem inet_ntop6_scan_ok (all : List Nat) :
    ∀ (ws pre : List Nat) (i : Nat) (best cur : Run),
      all = pre ++ ws → pre.length = i → RunOk all best i → CurOk all cur i →
      RunOk all (inet_ntop6_scan ws i best cur).1 all.length ∧
      CurOk all (inet_ntop6_scan ws i best cur).2 all.length := by
  intro ws
  induction ws with
  | nil =>
    intro pre i best cur hall hlen hb hc
    have : all.length = i := by rw [hall]; simp [hlen]
    simp only [inet_ntop6_scan]
    rw [this]
    exact ⟨hb, hc⟩
  | cons w ws ih =>
    intro pre i best cur hall hlen hb hc
    have hall2 : all = (pre ++ [w]) ++ ws := by rw [hall]; simp
    have hlen2 : (pre ++ [w]).length = i + 1 := by simp [hlen]
    have hget : all.getD i 0 = w := by
      rw [hall, ← hlen, List.getD_append_right _ _ _ _ (le_refl _)]
      simp
    rw [inet_ntop6_scan]
    by_cases hw : w = 0
    · rw [if_pos hw]
      by_cases hcb : cur.base = -1
      · rw [if_pos hcb]
        refine ih _ _ _ _ hall2 hlen2 (RunOk_mono _ _ _ _ (by omega) hb) ?_
        refine Or.inr ⟨by simp, by simp, by simp, ?_⟩
        intro j hj1 hj2
        simp only at hj1 hj2
        have : j = i := by omega
        rw [this, hget, hw]
      · rw [if_neg hcb]
        refine ih _ _ _ _ hall2 hlen2 (RunOk_mono _ _ _ _ (by omega) hb) ?_
        rcases hc with hc | ⟨h1, h2, h3, h4⟩
        · exact absurd hc hcb
        · refine Or.inr ⟨h1, by simp; omega, by simp; omega, ?_⟩
          intro j hj1 hj2
          simp only at hj1 hj2
          by_cases hji : j = i
          · rw [hji, hget, hw]
          · exact h4 j hj1 (by omega)
    · rw [if_neg hw]
      by_cases hcb : cur.base ≠ -1
      · rw [if_pos hcb]
        refine ih _ _ _ _ hall2 hlen2 ?_ (Or.inl rfl)
        split
        · exact RunOk_mono _ _ _ _ (by omega) (CurOk_RunOk _ _ _ hc)
        · exact RunOk_mono _ _ _ _ (by omega) hb
      · rw [if_neg hcb]
        exact ih _ _ _ _ hall2 hlen2 (RunOk_mono _ _ _ _ (by omega) hb)
          (Or.inl (by simpa using hcb))

/-- The run chosen by `inet_ntop6` is absent or a block of at least two zero
groups. -/
theorem inet_ntop6_best_ok (words : List Nat) :
    (inet_ntop6_best words).base = -1 ∨
    (0 ≤ (inet_ntop6_best words).base ∧ 2 ≤ (inet_ntop6_best words).len ∧
      (inet_ntop6_best words).base + (inet_ntop6_best words).len ≤ words.length ∧
      ∀ j : Nat, (inet_ntop6_best words).base ≤ j →
        (j : Int) < (inet_ntop6_best words).base + (inet_ntop6_best words).len →
        words.getD j 0 = 0) := by
  obtain ⟨h1, h2⟩ := inet_ntop6_scan_ok words words [] 0
    { base := -1, len := 0 } { base := -1, len := 0 } rfl rfl (Or.inl rfl) (Or.inl rfl)
  have h3 := CurOk_RunOk _ _ _ h2
  have hbest : ∀ best : Run, RunOk words best words.length →
      (if best.base ≠ -1 ∧ best.len < 2 then ({ base := -1, len := best.len } : Run)
        else best).base = -1 ∨
      (0 ≤ (if best.base ≠ -1 ∧ best.len < 2 then ({ base := -1, len := best.len } : Run)
        else best).base ∧
       2 ≤ (if best.base ≠ -1 ∧ best.len < 2 then ({ base := -1, len := best.len } : Run)
        else best).len ∧
       (if best.base ≠ -1 ∧ best.len < 2 then ({ base := -1, len := best.len } : Run)
        else best).base +
       (if best.base ≠ -1 ∧ best.len < 2 then ({ base := -1, len := best.len } : Run)
        else best).len ≤ words.length ∧
       ∀ j : Nat, (if best.base ≠ -1 ∧ best.len < 2 then
          ({ base := -1, len := best.len } : Run) else best).base ≤ j →
        (j : Int) < (if best.base ≠ -1 ∧ best.len < 2 then
          ({ base := -1, len := best.len } : Run) else best).base +
          (if best.base ≠ -1 ∧ best.len < 2 then
          ({ base := -1, len := best.len } : Run) else best).len →
        words.getD j 0 = 0) := by
    intro best hb
    by_cases hc : best.base ≠ -1 ∧ best.len < 2
    · rw [if_pos hc]; exact Or.inl rfl
    · rw [if_neg hc]
      rcases hb with hb | ⟨g1, g2, g3, g4⟩
      · exact Or.inl hb
      · refine Or.inr ⟨g1, ?_, g3, g4⟩
        by_contra hlt
        exact hc ⟨by omega, by omega⟩
  unfold inet_ntop6_best
  simp only []
  split
  · split
    · exact hbest _ h3
    · exact hbest _ h1
  · exact hbest _ h1

theorem pton6_hex_digit (d : Nat) (hd : d < 16) (rest ct : List Char) (tp : List Nat)
    (cp : Option Nat) (seen val : Nat) (hs : seen < 4) (hv : val * 16 + d ≤ 65535) :
    inet_pton6_loop (d.digitChar :: rest) ct
        { tp := tp, colonp := cp, xdigits_seen := seen, val := val } =
      inet_pton6_loop rest ct
        { tp := tp, colonp := cp, xdigits_seen := seen + 1, val := val * 16 + d } := by
  obtain ⟨h1, _⟩ := digitChar_facts d hd
  have g1 : seen ≠ 4 := by omega
  have g2 : ¬ 65535 < val * 16 + d := by omega
  rw [inet_pton6_loop, h1]
  simp [g1, g2]

theorem pton6_hex_group (w : Nat) (hw : w < 65536) (rest ct : List Char) (tp : List Nat)
    (cp : Option Nat) :
    ∃ k, 0 < k ∧
      inet_pton6_loop (fmt_x w ++ rest) ct
          { tp := tp, colonp := cp, xdigits_seen := 0, val := 0 } =
        inet_pton6_loop rest ct { tp := tp, colonp := cp, xdigits_seen := k, val := w } := by
  rcases fmt_x_word w hw with ⟨h1, e⟩ | ⟨h1, h2, e⟩ | ⟨h1, h2, e⟩ | ⟨h1, e⟩
  · refine ⟨1, by decide, ?_⟩
    rw [e, List.singleton_append, pton6_hex_digit _ (by omega) _ _ _ _ _ _ (by omega) (by omega)]
    simp
  · refine ⟨2, by decide, ?_⟩
    rw [e]
    simp only [List.cons_append, List.nil_append]
    rw [pton6_hex_digit _ (by omega) _ _ _ _ _ _ (by omega) (by omega),
      pton6_hex_digit _ (by omega) _ _ _ _ _ _ (by omega) (by omega)]
    congr 2
    omega
  · refine ⟨3, by decide, ?_⟩
    rw [e]
    simp only [List.cons_append, List.nil_append]
    rw [pton6_hex_digit _ (by omega) _ _ _ _ _ _ (by omega) (by omega),
      pton6_hex_digit _ (by omega) _ _ _ _ _ _ (by omega) (by omega),
      pton6_hex_digit _ (by omega) _ _ _ _ _ _ (by omega) (by omega)]
    congr 2
    omega
  · refine ⟨4, by decide, ?_⟩
    rw [e]
    simp only [List.cons_append, List.nil_append]
    rw [pton6_hex_digit _ (by omega) _ _ _ _ _ _ (by omega) (by omega),
      pton6_hex_digit _ (by omega) _ _ _ _ _ _ (by omega) (by omega),
      pton6_hex_digit _ (by omega) _ _ _ _ _ _ (by omega) (by omega),
      pton6_hex_digit _ (by omega) _ _ _ _ _ _ (by omega) (by omega)]
    congr 2
    omega

theorem pton6_group_colon (w : Nat) (hw : w < 65536) (rest : List Char) (hrest : rest ≠ [])
    (ct : List Char) (tp : List Nat) (cp : Option Nat) (htp : tp.length + 2 ≤ 16) :
    inet_pton6_loop (fmt_x w ++ ':' :: rest) ct
        { tp := tp, colonp := cp, xdigits_seen := 0, val := 0 } =
      inet_pton6_loop rest rest
        { tp := tp ++ [w / 256, w % 256], colonp := cp, xdigits_seen := 0, val := 0 } := by
  obtain ⟨k, hk, e⟩ := pton6_hex_group w hw (':' :: rest) ct tp cp
  have g1 : k ≠ 0 := by omega
  have g2 : ¬ 16 < tp.length + 2 := by omega
  have g3 : w / 256 % 256 = w / 256 := by omega
  rw [e, inet_pton6_loop]
  simp [hex_digit_value, g1, g2, g3, hrest]

theorem pton6_last_group (w : Nat) (hw : w < 65536) (ct : List Char) (tp : List Nat)
    (cp : Option Nat) (htp : tp.length + 2 ≤ 16) :
    (inet_pton6_loop (fmt_x w) ct
        { tp := tp, colonp := cp, xdigits_seen := 0, val := 0 }).bind inet_pton6_finish =
      inet_pton6_finish
        { tp := tp ++ [w / 256, w % 256], colonp := cp, xdigits_seen := 0, val := 0 } := by
  obtain ⟨k, hk, e⟩ := pton6_hex_group w hw [] ct tp cp
  have g2 : ¬ 16 < tp.length + 2 := by omega
  have g3 : w / 256 % 256 = w / 256 := by omega
  rw [List.append_nil] at e
  rw [e]
  simp [inet_pton6_loop, inet_pton6_finish, hk, g2, g3]

theorem pton6_double_colon (rest ct : List Char) (tp : List Nat) (v : Nat) :
    inet_pton6_loop (':' :: rest) ct
        { tp := tp, colonp := none, xdigits_seen := 0, val := v } =
      inet_pton6_loop rest rest
        { tp := tp, colonp := some tp.length, xdigits_seen := 0, val := v } := by
  rw [inet_pton6_loop]
  simp [hex_digit_value]

theorem pton6_decimal_then_dot (a : Nat) (ha : a < 256) (rest ct : List Char) (tp : List Nat)
    (cp : Option Nat) (b4 : List Nat) (h4 : inet_pton4 ct = some b4)
    (htp : tp.length + 4 ≤ 16) :
    ∃ v, inet_pton6_loop (fmt_u a ++ '.' :: rest) ct
        { tp := tp, colonp := cp, xdigits_seen := 0, val := 0 } =
      some { tp := tp ++ b4, colonp := cp, xdigits_seen := 0, val := v } := by
  have hdot : ∀ (seen v : Nat), inet_pton6_loop ('.' :: rest) ct
      { tp := tp, colonp := cp, xdigits_seen := seen, val := v } =
      some { tp := tp ++ b4, colonp := cp, xdigits_seen := 0, val := v } := by
    intro seen v
    rw [inet_pton6_loop]
    simp [hex_digit_value, htp, h4]
  rcases fmt_u_byte a ha with ⟨h1, e⟩ | ⟨h1, h2, e⟩ | ⟨h1, e⟩
  · rw [e, List.singleton_append,
      pton6_hex_digit _ (by omega) _ _ _ _ _ _ (by omega) (by omega), hdot]
    exact ⟨_, rfl⟩
  · rw [e]
    simp only [List.cons_append, List.nil_append]
    rw [pton6_hex_digit _ (by omega) _ _ _ _ _ _ (by omega) (by omega),
      pton6_hex_digit _ (by omega) _ _ _ _ _ _ (by omega) (by omega), hdot]
    exact ⟨_, rfl⟩
  · rw [e]
    simp only [List.cons_append, List.nil_append]
    rw [pton6_hex_digit _ (by omega) _ _ _ _ _ _ (by omega) (by omega),
      pton6_hex_digit _ (by omega) _ _ _ _ _ _ (by omega) (by omega),
      pton6_hex_digit _ (by omega) _ _ _ _ _ _ (by omega) (by omega), hdot]
    exact ⟨_, rfl⟩

theorem pton6_dotted_tail (a b c d : Nat) (ha : a < 256) (hb : b < 256) (hc : c < 256)
    (hd : d < 256) (tp : List Nat) (cp : Option Nat) (htp : tp.length + 4 ≤ 16) :
    (inet_pton6_loop (fmt_u a ++ '.' :: (fmt_u b ++ '.' :: (fmt_u c ++ '.' :: fmt_u d)))
        (fmt_u a ++ '.' :: (fmt_u b ++ '.' :: (fmt_u c ++ '.' :: fmt_u d)))
        { tp := tp, colonp := cp, xdigits_seen := 0, val := 0 }).bind inet_pton6_finish =
      inet_pton6_finish
        { tp := tp ++ [a, b, c, d], colonp := cp, xdigits_seen := 0, val := 0 } := by
  have h4 : inet_pton4 (fmt_u a ++ '.' :: (fmt_u b ++ '.' :: (fmt_u c ++ '.' :: fmt_u d))) =
      some [a, b, c, d] := by
    have := inet_pton4_dotted a b c d ha hb hc hd
    simpa using this
  obtain ⟨v, e⟩ := pton6_decimal_then_dot a ha (fmt_u b ++ '.' :: (fmt_u c ++ '.' :: fmt_u d))
    _ tp cp _ h4 htp
  rw [e]
  simp [inet_pton6_finish]

theorem fmt_x_head (w : Nat) (hw : w < 65536) :
    ∃ c cs, fmt_x w = c :: cs ∧ c ≠ ':' := by
  rcases fmt_x_word w hw with ⟨h1, e⟩ | ⟨h1, h2, e⟩ | ⟨h1, h2, e⟩ | ⟨h1, e⟩
  · exact ⟨_, _, e, (digitChar_facts _ (by omega)).2.1⟩
  · exact ⟨_, _, e, (digitChar_facts _ (by omega)).2.1⟩
  · exact ⟨_, _, e, (digitChar_facts _ (by omega)).2.1⟩
  · exact ⟨_, _, e, (digitChar_facts _ (by omega)).2.1⟩

theorem fmt_x_append_ne_nil (w : Nat) (hw : w < 65536) (rest : List Char) :
    fmt_x w ++ rest ≠ [] := by
  obtain ⟨c, cs, e, _⟩ := fmt_x_head w hw
  simp [e]

theorem inet_pton6_entry_group (w : Nat) (hw : w < 65536) (rest : List Char) :
    inet_pton6 (fmt_x w ++ rest) =
      (inet_pton6_loop (fmt_x w ++ rest) (fmt_x w ++ rest)
        { tp := [], colonp := none, xdigits_seen := 0, val := 0 }).bind inet_pton6_finish := by
  obtain ⟨c, cs, e, hc⟩ := fmt_x_head w hw
  rw [e, List.cons_append]
  simp only [inet_pton6, if_neg hc]
  cases inet_pton6_loop (c :: (cs ++ rest)) (c :: (cs ++ rest))
    { tp := [], colonp := none, xdigits_seen := 0, val := 0 } <;> rfl

theorem inet_pton6_entry_colons (rest : List Char) :
    inet_pton6 (':' :: ':' :: rest) =
      (inet_pton6_loop (':' :: rest) (':' :: rest)
        { tp := [], colonp := none, xdigits_seen := 0, val := 0 }).bind inet_pton6_finish := by
  simp only [inet_pton6, if_pos, ne_eq, not_true_eq_false, if_false]
  cases inet_pton6_loop (':' :: rest) (':' :: rest)
    { tp := [], colonp := none, xdigits_seen := 0, val := 0 } <;> rfl

theorem fmt_x_ne_nil (w : Nat) (hw : w < 65536) : fmt_x w ≠ [] := by
  obtain ⟨c, cs, e, _⟩ := fmt_x_head w hw
  simp [e]

theorem pton6_nil (ct : List Char) (st : Pton6State) : inet_pton6_loop [] ct st = some st := by
  rw [inet_pton6_loop]

set_option maxHeartbeats 4000000 in
/-- Parsing the text written by the formatting loop of `inet_ntop6` gives the
bytes of the eight groups back. -/
theorem inet_pton6_fmt (src : List Nat) (w0 w1 w2 w3 w4 w5 w6 w7 : Nat)
    (h0 : w0 < 65536) (h1 : w1 < 65536) (h2 : w2 < 65536) (h3 : w3 < 65536)
    (h4 : w4 < 65536) (h5 : w5 < 65536) (h6 : w6 < 65536) (h7 : w7 < 65536)
    (best : Run)
    (hbest : best.base = -1 ∨ (0 ≤ best.base ∧ 2 ≤ best.len ∧ best.base + best.len ≤ 8 ∧
      ∀ j : Nat, best.base ≤ j → (j : Int) < best.base + best.len →
        [w0, w1, w2, w3, w4, w5, w6, w7].getD j 0 = 0))
    (hdot : inet_ntop4 (src.drop 12) =
      fmt_u (w6 / 256) ++ '.' :: (fmt_u (w6 % 256) ++ '.' ::
        (fmt_u (w7 / 256) ++ '.' :: fmt_u (w7 % 256)))) :
    inet_pton6 (inet_ntop6_fmt src [w0, w1, w2, w3, w4, w5, w6, w7] best
        [w0, w1, w2, w3, w4, w5, w6, w7] 0 ++
        (if best.base ≠ -1 ∧ best.base + best.len = 8 then [':'] else [])) =
      some [w0 / 256, w0 % 256, w1 / 256, w1 % 256, w2 / 256, w2 % 256, w3 / 256, w3 % 256,
        w4 / 256, w4 % 256, w5 / 256, w5 % 256, w6 / 256, w6 % 256, w7 / 256, w7 % 256] := by
  obtain ⟨base, len⟩ := best
  simp only at hbest ⊢
  have b6h : w6 / 256 < 256 := by omega
  have b6l : w6 % 256 < 256 := by omega
  have b7h : w7 / 256 < 256 := by omega
  have b7l : w7 % 256 < 256 := by omega
  rcases hbest with hb | ⟨hb1, hb2, hb3, hz⟩
  · subst hb
    simp [inet_ntop6_fmt]
    simp [inet_pton6_entry_group, pton6_group_colon, pton6_last_group, pton6_double_colon,
      fmt_x_append_ne_nil, fmt_x_ne_nil, h0, h1, h2, h3, h4, h5, h6, h7]
    simp [inet_pton6_finish]
  · have z0 : base ≤ 0 → 0 < base + len → w0 = 0 := by simpa using hz 0
    have z1 : base ≤ 1 → 1 < base + len → w1 = 0 := by simpa using hz 1
    have z2 : base ≤ 2 → 2 < base + len → w2 = 0 := by simpa using hz 2
    have z3 : base ≤ 3 → 3 < base + len → w3 = 0 := by simpa using hz 3
    have z4 : base ≤ 4 → 4 < base + len → w4 = 0 := by simpa using hz 4
    have z5 : base ≤ 5 → 5 < base + len → w5 = 0 := by simpa using hz 5
    have z6 : base ≤ 6 → 6 < base + len → w6 = 0 := by simpa using hz 6
    have z7 : base ≤ 7 → 7 < base + len → w7 = 0 := by simpa using hz 7
    clear hz
    have hbase : base ≤ 6 := by omega
    have hlen : len ≤ 8 := by omega
    by_cases h5f : w5 = 65535
    · subst h5f
      interval_cases base <;> interval_cases len <;> first | omega | skip
      all_goals simp at z0 z1 z2 z3 z4 z5 z6 z7
      all_goals subst_vars
      all_goals simp [inet_ntop6_fmt, hdot]
      all_goals simp [inet_pton6_entry_group, inet_pton6_entry_colons, pton6_group_colon,
        pton6_last_group, pton6_double_colon, pton6_dotted_tail, pton6_nil,
        fmt_x_append_ne_nil, fmt_x_ne_nil, h0, h1, h2, h3, h4, h6, h7, b6h, b6l, b7h, b7l]
      all_goals simp [inet_pton6_finish]
    · interval_cases base <;> interval_cases len <;> first | omega | skip
      all_goals simp at z0 z1 z2 z3 z4 z5 z6 z7
      all_goals subst_vars
      all_goals simp [inet_ntop6_fmt, h5f, hdot]
      all_goals simp [inet_pton6_entry_group, inet_pton6_entry_colons, pton6_group_colon,
        pton6_last_group, pton6_double_colon, pton6_dotted_tail, pton6_nil,
        fmt_x_append_ne_nil, fmt_x_ne_nil, h0, h1, h2, h3, h4, h5, h6, h7, b6h, b6l, b7h, b7l]
      all_goals simp [inet_pton6_finish]

theorem inet_pton4_address_chars (src : List Char) (b : List Nat)
    (h : inet_pton4 src = some b) : ∀ ch ∈ src, address_char ch := by
  intro ch hch
  rcases inet_pton4_loop_chars src _ _ _ _ _ h ch hch with hd | hd
  · left
    simp [hex_digit_value, hd]
  · exact Or.inr (Or.inr hd)

theorem inet_pton6_loop_address_chars (src : List Char) :
    ∀ (ct : List Char) (st st2 : Pton6State), (∃ pre, ct = pre ++ src) →
      inet_pton6_loop src ct st = some st2 → ∀ ch ∈ src, address_char ch := by
  induction src with
  | nil => intro _ _ _ _ _ ch hch; simp at hch
  | cons c rest ih =>
    intro ct st st2 hpre h ch hch
    obtain ⟨pre, hpre⟩ := hpre
    rw [inet_pton6_loop] at h
    cases hv : hex_digit_value c with
    | some digit =>
      rw [hv] at h
      rcases List.mem_cons.mp hch with rfl | hm
      · left; simp [hv]
      · simp only at h
        split at h
        · simp at h
        · split at h
          · simp at h
          · exact ih ct _ _ ⟨pre ++ [c], by simp [hpre]⟩ h ch hm
    | none =>
      rw [hv] at h
      simp only at h
      split at h
      · rename_i hc
        rcases List.mem_cons.mp hch with rfl | hm
        · exact Or.inr (Or.inl hc)
        · split at h
          · split at h
            · simp at h
            · exact ih rest _ _ ⟨[], rfl⟩ h ch hm
          · split at h
            · simp at h
            · split at h
              · simp at h
              · exact ih rest _ _ ⟨[], rfl⟩ h ch hm
      · split at h
        · cases h4 : inet_pton4 ct with
          | none => rw [h4] at h; simp at h
          | some b4 =>
            have hall := inet_pton4_address_chars ct b4 h4
            apply hall
            rw [hpre]
            exact List.mem_append_right _ hch
        · simp at h

/-- A text accepted by `inet_pton6` holds address characters only. -/
theorem inet_pton6_address_chars (src : List Char) (b : List Nat)
    (h : inet_pton6 src = some b) : ∀ ch ∈ src, address_char ch := by
  cases src with
  | nil => simp [inet_pton6] at h
  | cons c rest =>
    simp only [inet_pton6] at h
    by_cases hc : c = ':'
    · subst hc
      rw [if_pos rfl] at h
      cases rest with
      | nil => simp at h
      | cons c2 rest2 =>
        simp only at h
        by_cases hc2 : c2 ≠ ':'
        · rw [if_pos hc2] at h; simp at h
        · rw [if_neg hc2] at h
          simp only at h
          cases hl : inet_pton6_loop (c2 :: rest2) (c2 :: rest2)
              { tp := [], colonp := none, xdigits_seen := 0, val := 0 } with
          | none => rw [hl] at h; simp at h
          | some st =>
            intro ch hch
            rcases List.mem_cons.mp hch with rfl | hm
            · exact Or.inr (Or.inl rfl)
            · exact inet_pton6_loop_address_chars _ _ _ _ ⟨[], rfl⟩ hl ch hm
    · rw [if_neg hc] at h
      simp only at h
      cases hl : inet_pton6_loop (c :: rest) (c :: rest)
          { tp := [], colonp := none, xdigits_seen := 0, val := 0 } with
      | none => rw [hl] at h; simp at h
      | some st => exact inet_pton6_loop_address_chars _ _ _ _ ⟨[], rfl⟩ hl

theorem address_char_ne (ch : Char) (h : address_char ch) :
    ch ≠ '/' ∧ ch ≠ Char.ofNat 0 := by
  unfold address_char at h
  constructor
  · rintro rfl
    revert h; decide
  · rintro rfl
    revert h; decide

theorem c_str_of_address_chars (text : List Char) (h : ∀ ch ∈ text, address_char ch) :
    c_str text = text := by
  unfold c_str
  rw [List.takeWhile_eq_self_iff]
  intro ch hch
  simpa using (address_char_ne ch (h ch hch)).2

theorem no_slash_of_address_chars (text : List Char) (h : ∀ ch ∈ text, address_char ch) :
    '/' ∉ text := fun hm => (address_char_ne _ (h _ hm)).1 rfl

theorem words_of_eq (src : List Nat) :
    words_of src =
      [byte_at src 0 * 256 + byte_at src 1, byte_at src 2 * 256 + byte_at src 3,
       byte_at src 4 * 256 + byte_at src 5, byte_at src 6 * 256 + byte_at src 7,
       byte_at src 8 * 256 + byte_at src 9, byte_at src 10 * 256 + byte_at src 11,
       byte_at src 12 * 256 + byte_at src 13, byte_at src 14 * 256 + byte_at src 15] := rfl

theorem byte_at_drop (src : List Nat) (n j : Nat) :
    byte_at (src.drop n) j = byte_at src (n + j) := by
  simp [byte_at, List.getD_eq_getElem?_getD, List.getElem?_drop]

theorem word_split (a b : Nat) (ha : a < 256) (hb : b < 256) :
    a * 256 + b < 65536 ∧ (a * 256 + b) / 256 = a ∧ (a * 256 + b) % 256 = b := by
  omega

/-- Parsing the text `inet_ntop6` writes for a buffer gives back its first
16 bytes. -/
theorem inet_pton6_inet_ntop6 (src : List Nat) :
    inet_pton6 (inet_ntop6 src) =
      some [byte_at src 0, byte_at src 1, byte_at src 2, byte_at src 3, byte_at src 4,
        byte_at src 5, byte_at src 6, byte_at src 7, byte_at src 8, byte_at src 9,
        byte_at src 10, byte_at src 11, byte_at src 12, byte_at src 13, byte_at src 14,
        byte_at src 15] := by
  obtain ⟨l0, p0, q0⟩ := word_split _ _ (byte_at_lt src 0) (byte_at_lt src 1)
  obtain ⟨l1, p1, q1⟩ := word_split _ _ (byte_at_lt src 2) (byte_at_lt src 3)
  obtain ⟨l2, p2, q2⟩ := word_split _ _ (byte_at_lt src 4) (byte_at_lt src 5)
  obtain ⟨l3, p3, q3⟩ := word_split _ _ (byte_at_lt src 6) (byte_at_lt src 7)
  obtain ⟨l4, p4, q4⟩ := word_split _ _ (byte_at_lt src 8) (byte_at_lt src 9)
  obtain ⟨l5, p5, q5⟩ := word_split _ _ (byte_at_lt src 10) (byte_at_lt src 11)
  obtain ⟨l6, p6, q6⟩ := word_split _ _ (byte_at_lt src 12) (byte_at_lt src 13)
  obtain ⟨l7, p7, q7⟩ := word_split _ _ (byte_at_lt src 14) (byte_at_lt src 15)
  have hbest := inet_ntop6_best_ok (words_of src)
  have hdot : inet_ntop4 (src.drop 12) =
      fmt_u ((byte_at src 12 * 256 + byte_at src 13) / 256) ++ '.' ::
        (fmt_u ((byte_at src 12 * 256 + byte_at src 13) % 256) ++ '.' ::
          (fmt_u ((byte_at src 14 * 256 + byte_at src 15) / 256) ++ '.' ::
            fmt_u ((byte_at src 14 * 256 + byte_at src 15) % 256))) := by
    rw [p6, q6, p7, q7]
    simp [inet_ntop4, byte_at_drop]
  have key := inet_pton6_fmt src _ _ _ _ _ _ _ _ l0 l1 l2 l3 l4 l5 l6 l7
    (inet_ntop6_best (words_of src))
    (by rw [words_of_eq] at hbest; simpa using hbest) hdot
  rw [p0, q0, p1, q1, p2, q2, p3, q3, p4, q4, p5, q5, p6, q6, p7, q7] at key
  rw [← key]
  rfl

theorem inet_pton4_inet_ntop6 (src : List Nat) : inet_pton4 (inet_ntop6 src) = none := by
  cases h : inet_pton4 (inet_ntop6 src) with
  | none => rfl
  | some b =>
    have := inet_pton_disjoint _ _ h
    rw [inet_pton6_inet_ntop6] at this
    simp at this

theorem inet_ntop4_prefix (src rest : List Nat) :
    inet_ntop4 ([byte_at src 0, byte_at src 1, byte_at src 2, byte_at src 3] ++ rest) =
      inet_ntop4 src := by
  have h : ∀ i, byte_at src i % 256 = byte_at src i := fun i =>
    Nat.mod_eq_of_lt (byte_at_lt src i)
  simp only [List.cons_append, List.nil_append, inet_ntop4_cons, h]
  rfl

theorem inet_ntop6_fmt_congr (s1 s2 : List Nat) (words : List Nat) (best : Run)
    (h : inet_ntop4 (s1.drop 12) = inet_ntop4 (s2.drop 12)) :
    ∀ (ws : List Nat) (i : Nat),
      inet_ntop6_fmt s1 words best ws i = inet_ntop6_fmt s2 words best ws i := by
  intro ws
  induction ws with
  | nil => intro i; simp [inet_ntop6_fmt]
  | cons w ws ih =>
    intro i
    simp only [inet_ntop6_fmt, ih, h]

theorem inet_ntop6_prefix (src rest : List Nat) :
    inet_ntop6 ([byte_at src 0, byte_at src 1, byte_at src 2, byte_at src 3, byte_at src 4,
        byte_at src 5, byte_at src 6, byte_at src 7, byte_at src 8, byte_at src 9,
        byte_at src 10, byte_at src 11, byte_at src 12, byte_at src 13, byte_at src 14,
        byte_at src 15] ++ rest) = inet_ntop6 src := by
  have h : ∀ i, byte_at src i % 256 = byte_at src i := fun i =>
    Nat.mod_eq_of_lt (byte_at_lt src i)
  have hw : words_of ([byte_at src 0, byte_at src 1, byte_at src 2, byte_at src 3,
        byte_at src 4, byte_at src 5, byte_at src 6, byte_at src 7, byte_at src 8,
        byte_at src 9, byte_at src 10, byte_at src 11, byte_at src 12, byte_at src 13,
        byte_at src 14, byte_at src 15] ++ rest) = words_of src := by
    rw [words_of_eq, words_of_eq]
    simp [byte_at, List.getD_eq_getElem?_getD]
  have h4 : inet_ntop4 (([byte_at src 0, byte_at src 1, byte_at src 2, byte_at src 3,
        byte_at src 4, byte_at src 5, byte_at src 6, byte_at src 7, byte_at src 8,
        byte_at src 9, byte_at src 10, byte_at src 11, byte_at src 12, byte_at src 13,
        byte_at src 14, byte_at src 15] ++ rest).drop 12) = inet_ntop4 (src.drop 12) := by
    simp [inet_ntop4, byte_at_drop, byte_at, List.getD_eq_getElem?_getD]
  unfold inet_ntop6
  simp only [hw]
  rw [inet_ntop6_fmt_congr _ _ _ _ h4]

/-! ## Shape of parsed addresses, and parsing a formatted value again -/

theorem c_str_of_no_nul (data : List Char) (h : Char.ofNat 0 ∉ data) : c_str data = data := by
  unfold c_str
  rw [List.takeWhile_eq_self_iff]
  intro ch hch
  have : ch ≠ Char.ofNat 0 := fun e => h (e ▸ hch)
  simpa using this

theorem inet_pton6_loop_shape (src : List Char) :
    ∀ (ct : List Char) (st st2 : Pton6State),
      inet_pton6_loop src ct st = some st2 →
      st.tp.length ≤ 16 → (∀ x ∈ st.tp, x ≤ 255) →
      (∀ cp, st.colonp = some cp → cp ≤ st.tp.length) →
      st2.tp.length ≤ 16 ∧ (∀ x ∈ st2.tp, x ≤ 255) ∧
        (∀ cp, st2.colonp = some cp → cp ≤ st2.tp.length) := by
  induction src with
  | nil =>
    intro ct st st2 h h1 h2 h3
    simp only [inet_pton6_loop, Option.some.injEq] at h
    subst h
    exact ⟨h1, h2, h3⟩
  | cons c rest ih =>
    intro ct st st2 h h1 h2 h3
    rw [inet_pton6_loop] at h
    split at h
    · split at h
      · simp at h
      · dsimp only at h
        split at h
        · simp at h
        · exact ih _ _ _ h h1 h2 h3
    · split at h
      · split at h
        · split at h
          · simp at h
          · refine ih _ _ _ h h1 h2 ?_
            intro cp hcp
            simp only [Option.some.injEq] at hcp
            subst hcp
            exact le_refl _
        · split at h
          · simp at h
          · split at h
            · simp at h
            · rename_i hlen
              refine ih _ _ _ h (by simp; omega) ?_ ?_
              · intro x hx
                simp only [List.mem_append, List.mem_cons, List.mem_singleton,
                  List.not_mem_nil, or_false] at hx
                rcases hx with hx | hx | hx
                · exact h2 x hx
                · omega
                · omega
              · intro cp hcp
                have := h3 cp hcp
                simp only [List.length_append]
                omega
      · split at h
        · rename_i hdot
          split at h
          · rename_i b4 hb4
            simp only [Option.some.injEq] at h
            subst h
            obtain ⟨g1, g2⟩ := inet_pton4_shape _ _ hb4
            refine ⟨by simp [g1]; omega, ?_, ?_⟩
            · intro x hx
              rcases List.mem_append.mp hx with hx | hx
              · exact h2 x hx
              · exact g2 x hx
            · intro cp hcp
              have := h3 cp hcp
              simp only [List.length_append]
              omega
          · simp at h
        · simp at h

theorem inet_pton6_finish_shape (st : Pton6State) (b : List Nat)
    (h : inet_pton6_finish st = some b)
    (h1 : st.tp.length ≤ 16) (h2 : ∀ x ∈ st.tp, x ≤ 255)
    (h3 : ∀ cp, st.colonp = some cp → cp ≤ st.tp.length) :
    b.length = 16 ∧ ∀ x ∈ b, x ≤ 255 := by
  unfold inet_pton6_finish at h
  have key : ∀ tp : List Nat, tp.length ≤ 16 → (∀ x ∈ tp, x ≤ 255) →
      (∀ cp, st.colonp = some cp → cp ≤ tp.length) →
      (match st.colonp with
        | some cp =>
          if tp.length = 16 then none
          else some (tp.take cp ++ List.replicate (16 - tp.length) 0 ++ tp.drop cp)
        | none => if tp.length ≠ 16 then none else some tp) = some b →
      b.length = 16 ∧ ∀ x ∈ b, x ≤ 255 := by
    intro tp g1 g2 g3 hb
    cases hc : st.colonp with
    | none =>
      rw [hc] at hb
      simp only at hb
      split at hb
      · simp at hb
      · rename_i hl
        simp only [Option.some.injEq] at hb
        subst hb
        exact ⟨by simpa using hl, g2⟩
    | some cp =>
      rw [hc] at hb
      simp only at hb
      have hcp := g3 cp hc
      split at hb
      · simp at hb
      · simp only [Option.some.injEq] at hb
        subst hb
        refine ⟨by simp; omega, ?_⟩
        intro x hx
        simp only [List.mem_append, List.mem_replicate] at hx
        rcases hx with (hx | hx) | hx
        · exact g2 x (List.mem_of_mem_take hx)
        · omega
        · exact g2 x (List.mem_of_mem_drop hx)
  dsimp only at h
  by_cases hs : st.xdigits_seen > 0
  · rw [if_pos hs] at h
    by_cases hl : st.tp.length + 2 > 16
    · rw [if_pos hl] at h; simp at h
    · rw [if_neg hl] at h
      refine key _ (by simp; omega) ?_ ?_ h
      · intro x hx
        simp only [List.mem_append, List.mem_cons, List.mem_singleton,
          List.not_mem_nil, or_false] at hx
        rcases hx with hx | hx | hx
        · exact h2 x hx
        · omega
        · omega
      · intro cp hcp
        have := h3 cp hcp
        simp only [List.length_append]
        omega
  · rw [if_neg hs] at h
    exact key _ h1 h2 h3 h

/-- An address written by `inet_pton6` is 16 bytes. -/
theorem inet_pton6_shape (src : List Char) (b : List Nat) (h : inet_pton6 src = some b) :
    b.length = 16 ∧ ∀ x ∈ b, x ≤ 255 := by
  have start : ∀ s : List Char,
      (match inet_pton6_loop s s { tp := [], colonp := none, xdigits_seen := 0, val := 0 } with
        | none => none
        | some st => inet_pton6_finish st) = some b → b.length = 16 ∧ ∀ x ∈ b, x ≤ 255 := by
    intro s hs
    cases hl : inet_pton6_loop s s { tp := [], colonp := none, xdigits_seen := 0, val := 0 } with
    | none => rw [hl] at hs; simp at hs
    | some st =>
      rw [hl] at hs
      obtain ⟨g1, g2, g3⟩ := inet_pton6_loop_shape s s _ st hl (by simp) (by simp) (by simp)
      exact inet_pton6_finish_shape st b hs g1 g2 g3
  cases src with
  | nil => simp [inet_pton6] at h
  | cons c rest =>
    simp only [inet_pton6] at h
    by_cases hc : c = ':'
    · rw [if_pos hc] at h
      cases rest with
      | nil => simp at h
      | cons c2 rest2 =>
        simp only at h
        by_cases hc2 : c2 ≠ ':'
        · rw [if_pos hc2] at h; simp at h
        · rw [if_neg hc2] at h
          exact start _ h
    · rw [if_neg hc] at h
      exact start _ h

theorem byte_at_of_le (b : List Nat) (hb : ∀ x ∈ b, x ≤ 255) (i : Nat) (hi : i < b.length) :
    byte_at b i = b[i] := by
  have hx : b[i] ≤ 255 := hb _ (List.getElem_mem _)
  simp only [byte_at, List.getD_eq_getElem?_getD, List.getElem?_eq_getElem hi,
    Option.getD_some]
  omega

theorem bytes4_eq (b : List Nat) (hl : b.length = 4) (hb : ∀ x ∈ b, x ≤ 255) :
    [byte_at b 0, byte_at b 1, byte_at b 2, byte_at b 3] = b := by
  apply List.ext_getElem
  · simp [hl]
  · intro i h1 h2
    have hi : i < 4 := by simpa using h1
    rw [← byte_at_of_le b hb i h2]
    interval_cases i <;> rfl

theorem bytes16_eq (b : List Nat) (hl : b.length = 16) (hb : ∀ x ∈ b, x ≤ 255) :
    [byte_at b 0, byte_at b 1, byte_at b 2, byte_at b 3, byte_at b 4, byte_at b 5,
      byte_at b 6, byte_at b 7, byte_at b 8, byte_at b 9, byte_at b 10, byte_at b 11,
      byte_at b 12, byte_at b 13, byte_at b 14, byte_at b 15] = b := by
  apply List.ext_getElem
  · simp [hl]
  · intro i h1 h2
    have hi : i < 16 := by simpa using h1
    rw [← byte_at_of_le b hb i h2]
    interval_cases i <;> rfl

/-- The four ways the mask step of `TryParse` can end. -/
theorem TryParse_mask_cases (input : String) (r : IPAddress) :
    IPAddress.TryParse_mask input r = { ret := true, result := r, error_message := none } ∨
    IPAddress.TryParse_mask input r =
      { ret := false, result := r,
        error_message := some ("Failed to convert string \"" ++ input ++
          "\" to inet: Faied to parse IP network mask") } ∨
    IPAddress.TryParse_mask input r =
      { ret := false, result := r,
        error_message := some ("Failed to convert string \"" ++ input ++
          "\" to inet: Expected a number between 0-32 for IPv4 and 0-128 for IPv6") } ∨
    ∃ mask, mask ≤ r.mask ∧
      IPAddress.TryParse_mask input r =
        { ret := true, result := { r with mask := mask }, error_message := none } := by
  unfold IPAddress.TryParse_mask
  simp only []
  split
  · exact Or.inl rfl
  · split
    · right; left
      simp only [IPAddressError, AssignError, String.append_assoc]
      rfl
    · rename_i mask _
      split
      · right; right; left
        simp only [IPAddressError, AssignError, String.append_assoc]
        rfl
      · right; right; right
        exact ⟨mask, by omega, rfl⟩

theorem find_slash_le (l : List Char) : find_slash l ≤ l.length := by
  induction l with
  | nil => simp [find_slash]
  | cons ch rest ih =>
    simp only [find_slash]
    split
    · simp
    · simp; omega

theorem find_slash_lt (l : List Char) (h : '/' ∈ l) : find_slash l < l.length := by
  induction l with
  | nil => simp at h
  | cons ch rest ih =>
    simp only [find_slash]
    by_cases hc : ch = '/'
    · simp [hc]
    · rw [if_neg hc]
      have : '/' ∈ rest := by
        rcases List.mem_cons.mp h with e | e
        · exact absurd e.symm hc
        · exact e
      have := ih this
      simp only [List.length_cons]
      omega

theorem skip_digits_all (l : List Char) (h : ∀ ch ∈ l, 48 ≤ ch.toNat ∧ ch.toNat ≤ 57) :
    skip_digits l = l.length := by
  induction l with
  | nil => rfl
  | cons ch rest ih =>
    have h1 := h ch (by simp)
    have h2 : ∀ c ∈ rest, 48 ≤ c.toNat ∧ c.toNat ≤ 57 := fun c hc => h c (by simp [hc])
    simp [skip_digits, h1, ih h2]

/-- The mask step does not look at the address: flag, message and mask are
the same for any two address contents. -/
theorem TryParse_mask_uniform (input : String) (t : IPAddressType) (m : Nat) :
    ∃ (ok : Bool) (msg : Option String) (mask : Nat), ∀ a : List Nat,
      IPAddress.TryParse_mask input { type := t, address := a, mask := m } =
        { ret := ok, result := { type := t, address := a, mask := mask },
          error_message := msg } := by
  unfold IPAddress.TryParse_mask
  simp only []
  split
  · exact ⟨true, none, m, fun a => rfl⟩
  · split
    · exact ⟨false, _, m, fun a => rfl⟩
    · rename_i mask _
      split
      · exact ⟨false, _, m, fun a => rfl⟩
      · exact ⟨true, none, mask, fun a => rfl⟩

theorem TryCast_uint8_above_255 (text : List Char)
    (hval : 255 < text.foldl (fun acc ch => acc * 10 + (ch.toNat - 48)) 0) :
    TryCast_uint8 text = none := by
  unfold TryCast_uint8
  split
  · rfl
  · split
    · simp only []
      rw [if_neg (by omega)]
    · rfl

theorem mask_messages_differ (input : String) :
    some ("Failed to convert string \"" ++ input ++
        "\" to inet: Faied to parse IP network mask") ≠
      some ("Failed to convert string \"" ++ input ++
        "\" to inet: Expected a number between 0-32 for IPv4 and 0-128 for IPv6") := by
  intro h
  simp only [Option.some.injEq] at h
  have h2 := congrArg String.data h
  simp only [String.data_append, List.append_assoc] at h2
  have h3 := List.append_cancel_left (List.append_cancel_left h2)
  revert h3
  decide

theorem hugeint_bits_eq (a : List Nat) :
    hugeint_bits a =
      byte_at a 0 * 256 ^ 0 + (byte_at a 1 * 256 ^ 1 + (byte_at a 2 * 256 ^ 2 +
      (byte_at a 3 * 256 ^ 3 + (byte_at a 4 * 256 ^ 4 + (byte_at a 5 * 256 ^ 5 +
      (byte_at a 6 * 256 ^ 6 + (byte_at a 7 * 256 ^ 7 + (byte_at a 8 * 256 ^ 8 +
      (byte_at a 9 * 256 ^ 9 + (byte_at a 10 * 256 ^ 10 + (byte_at a 11 * 256 ^ 11 +
      (byte_at a 12 * 256 ^ 12 + (byte_at a 13 * 256 ^ 13 + (byte_at a 14 * 256 ^ 14 +
      (byte_at a 15 * 256 ^ 15 + 0))))))))))))))) := rfl

/-- The bytes of a number below 2^128, put together again. -/
theorem hugeint_bits_bytes (n : Nat) (h : n < 2 ^ 128) :
    hugeint_bits ((List.range 16).map (fun i => n / 256 ^ i % 256)) = n := by
  rw [hugeint_bits_eq]
  simp only [byte_at, List.range, List.range.loop, List.map, List.getD_cons_zero,
    List.getD_cons_succ, Nat.mod_mod]
  norm_num at h ⊢
  omega

theorem hugeint_bits_of_int (v : Int) :
    (hugeint_bits (hugeint_t_of_int v) : Int) = v % ((2 ^ 128 : Nat) : Int) := by
  have hpos : (0 : Int) ≤ v % ((2 ^ 128 : Nat) : Int) := Int.emod_nonneg _ (by norm_num)
  have hlt : v % ((2 ^ 128 : Nat) : Int) < ((2 ^ 128 : Nat) : Int) :=
    Int.emod_lt_of_pos _ (by norm_num)
  have hn : (v % ((2 ^ 128 : Nat) : Int)).toNat < 2 ^ 128 := by
    have := Int.toNat_of_nonneg hpos
    omega
  show (hugeint_bits ((List.range 16).map
    (fun i => (v % ((2 ^ 128 : Nat) : Int)).toNat / 256 ^ i % 256)) : Int) = _
  rw [hugeint_bits_bytes _ hn, Int.toNat_of_nonneg hpos]

/-- Converting to `hugeint_t` keeps the value of every signed 128-bit
integer. -/
theorem hugeint_value_of_int (v : Int) (h1 : -(2 ^ 127 : Int) ≤ v) (h2 : v < 2 ^ 127) :
    hugeint_value (hugeint_t_of_int v) = v := by
  have hb := hugeint_bits_of_int v
  unfold hugeint_value
  norm_num at h1 h2 hb ⊢
  split <;> omega

theorem zero_flag_eq_zero (w : Nat) : zero_flag w = 0 ↔ w = 0 := by
  unfold zero_flag
  split <;> simp_all

theorem inet_ntop6_scan_flags (ws : List Nat) : ∀ (i : Nat) (best cur : Run),
    inet_ntop6_scan ws i best cur = inet_ntop6_scan (ws.map zero_flag) i best cur := by
  induction ws with
  | nil => intro i best cur; rfl
  | cons w ws ih =>
    intro i best cur
    simp only [inet_ntop6_scan, List.map_cons, zero_flag_eq_zero, ih]

theorem inet_ntop6_best_flags (ws : List Nat) :
    inet_ntop6_best ws = inet_ntop6_best (ws.map zero_flag) := by
  unfold inet_ntop6_best
  rw [inet_ntop6_scan_flags]

theorem zero_run_length_flags (ws : List Nat) :
    zero_run_length ws = zero_run_length (ws.map zero_flag) := by
  induction ws with
  | nil => rfl
  | cons w ws ih => simp only [zero_run_length, List.map_cons, zero_flag_eq_zero, ih]

theorem spec_longest_zero_run_flags (ws : List Nat) :
    spec_longest_zero_run ws = spec_longest_zero_run (ws.map zero_flag) := by
  unfold spec_longest_zero_run
  simp only [List.length_map, ← List.map_drop, ← zero_run_length_flags]

/-- On every zero pattern of eight groups the run found by `inet_ntop6` is
the longest zero run of the spec, and it starts at group 0 with length 6 or 5
exactly when that many zero groups lead the address. -/
theorem best_run_patterns :
    ∀ b0 b1 b2 b3 b4 b5 b6 b7 : Bool,
      run_of (inet_ntop6_best [b0.toNat, b1.toNat, b2.toNat, b3.toNat, b4.toNat, b5.toNat,
          b6.toNat, b7.toNat]) =
        spec_longest_zero_run [b0.toNat, b1.toNat, b2.toNat, b3.toNat, b4.toNat, b5.toNat,
          b6.toNat, b7.toNat] ∧
      (((inet_ntop6_best [b0.toNat, b1.toNat, b2.toNat, b3.toNat, b4.toNat, b5.toNat,
          b6.toNat, b7.toNat]).base = 0 ∧
        (inet_ntop6_best [b0.toNat, b1.toNat, b2.toNat, b3.toNat, b4.toNat, b5.toNat,
          b6.toNat, b7.toNat]).len = 6) ↔
        zero_run_length [b0.toNat, b1.toNat, b2.toNat, b3.toNat, b4.toNat, b5.toNat,
          b6.toNat, b7.toNat] = 6) ∧
      (((inet_ntop6_best [b0.toNat, b1.toNat, b2.toNat, b3.toNat, b4.toNat, b5.toNat,
          b6.toNat, b7.toNat]).base = 0 ∧
        (inet_ntop6_best [b0.toNat, b1.toNat, b2.toNat, b3.toNat, b4.toNat, b5.toNat,
          b6.toNat, b7.toNat]).len = 5) ↔
        zero_run_length [b0.toNat, b1.toNat, b2.toNat, b3.toNat, b4.toNat, b5.toNat,
          b6.toNat, b7.toNat] = 5) := by
  decide
theorem zero_flag_toNat (w : Nat) : zero_flag w = (decide (w ≠ 0)).toNat := by
  unfold zero_flag
  split <;> simp_all

/-- The facts of `best_run_patterns` for any eight groups. -/
theorem best_run_spec (w0 w1 w2 w3 w4 w5 w6 w7 : Nat) :
    run_of (inet_ntop6_best [w0, w1, w2, w3, w4, w5, w6, w7]) =
      spec_longest_zero_run [w0, w1, w2, w3, w4, w5, w6, w7] ∧
    (((inet_ntop6_best [w0, w1, w2, w3, w4, w5, w6, w7]).base = 0 ∧
      (inet_ntop6_best [w0, w1, w2, w3, w4, w5, w6, w7]).len = 6) ↔
      zero_run_length [w0, w1, w2, w3, w4, w5, w6, w7] = 6) ∧
    (((inet_ntop6_best [w0, w1, w2, w3, w4, w5, w6, w7]).base = 0 ∧
      (inet_ntop6_best [w0, w1, w2, w3, w4, w5, w6, w7]).len = 5) ↔
      zero_run_length [w0, w1, w2, w3, w4, w5, w6, w7] = 5) := by
  rw [inet_ntop6_best_flags, spec_longest_zero_run_flags, zero_run_length_flags]
  simp only [List.map_cons, List.map_nil, zero_flag_toNat]
  exact best_run_patterns _ _ _ _ _ _ _ _

theorem fmt_x_ffff : fmt_x 65535 = ['f', 'f', 'f', 'f'] := by decide

set_option maxHeartbeats 4000000 in
/-- The text written by the loops of `inet_ntop6`, against the spec form. -/
theorem inet_ntop6_fmt_canonical (src : List Nat) (w0 w1 w2 w3 w4 w5 w6 w7 : Nat) :
    inet_ntop6_fmt src [w0, w1, w2, w3, w4, w5, w6, w7]
        (inet_ntop6_best [w0, w1, w2, w3, w4, w5, w6, w7])
        [w0, w1, w2, w3, w4, w5, w6, w7] 0 ++
      (if (inet_ntop6_best [w0, w1, w2, w3, w4, w5, w6, w7]).base ≠ -1 ∧
          (inet_ntop6_best [w0, w1, w2, w3, w4, w5, w6, w7]).base +
            (inet_ntop6_best [w0, w1, w2, w3, w4, w5, w6, w7]).len = 8 then [':'] else []) =
    if zero_run_length [w0, w1, w2, w3, w4, w5, w6, w7] = 6 then
      ':' :: ':' :: inet_ntop4 (src.drop 12)
    else if zero_run_length [w0, w1, w2, w3, w4, w5, w6, w7] = 5 ∧ w5 = 65535 then
      ':' :: ':' :: 'f' :: 'f' :: 'f' :: 'f' :: ':' :: inet_ntop4 (src.drop 12)
    else spec_canonical_ipv6 [w0, w1, w2, w3, w4, w5, w6, w7] := by
  obtain ⟨f1, f2, f3⟩ := best_run_spec w0 w1 w2 w3 w4 w5 w6 w7
  have hok := inet_ntop6_best_ok [w0, w1, w2, w3, w4, w5, w6, w7]
  unfold spec_canonical_ipv6
  rw [← f1]
  simp only [← f2, ← f3]
  generalize inet_ntop6_best [w0, w1, w2, w3, w4, w5, w6, w7] = best at hok ⊢
  obtain ⟨base, len⟩ := best
  simp only [List.length_cons, List.length_nil] at hok
  rcases hok with hb | ⟨hb1, hb2, hb3, _⟩
  · subst hb
    simp [inet_ntop6_fmt, run_of, spec_hex_groups]
  · have hbase : base ≤ 6 := by omega
    have hlen : len ≤ 8 := by omega
    by_cases h5f : w5 = 65535
    · subst h5f
      interval_cases base <;> interval_cases len <;> first | omega | skip
      all_goals simp [inet_ntop6_fmt, run_of, spec_hex_groups, fmt_x_ffff]
    · interval_cases base <;> interval_cases len <;> first | omega | skip
      all_goals simp [inet_ntop6_fmt, run_of, spec_hex_groups, h5f]

/-- The text of `inet_ntop6`: the spec form, except that an address led by
exactly six zero groups, or by exactly five zero groups and `ffff`, gets a
dotted-decimal tail. -/
theorem inet_ntop6_canonical (src : List Nat) :
    inet_ntop6 src =
      if zero_run_length (words_of src) = 6 then ':' :: ':' :: inet_ntop4 (src.drop 12)
      else if zero_run_length (words_of src) = 5 ∧ (words_of src).getD 5 0 = 65535 then
        ':' :: ':' :: 'f' :: 'f' :: 'f' :: 'f' :: ':' :: inet_ntop4 (src.drop 12)
      else spec_canonical_ipv6 (words_of src) := by
  unfold inet_ntop6
  simp only [words_of_eq]
  rw [inet_ntop6_fmt_canonical]
  rfl

theorem inet_ntop6_append (b rest : List Nat) (hl : b.length = 16) (hb : ∀ x ∈ b, x ≤ 255) :
    inet_ntop6 (b ++ rest) = inet_ntop6 b := by
  have := inet_ntop6_prefix b rest
  rwa [bytes16_eq b hl hb] at this

/-! ## The C string behind the data pointer -/

theorem c_str_cons (ch : Char) (rest : List Char) :
    c_str (ch :: rest) = if ch = Char.ofNat 0 then [] else ch :: c_str rest := by
  unfold c_str
  rw [List.takeWhile_cons]
  by_cases h : ch = Char.ofNat 0 <;> simp [h]

/-- A text without NUL characters is read in full, and the reading goes on
into the memory behind it. -/
theorem c_str_append_of_no_nul (data after : List Char) (h : Char.ofNat 0 ∉ data) :
    c_str (data ++ after) = data ++ c_str after := by
  induction data with
  | nil => rfl
  | cons ch rest ih =>
    have h1 : ch ≠ Char.ofNat 0 := fun e => h (by simp [e])
    have h2 : Char.ofNat 0 ∉ rest := fun e => h (by simp [e])
    rw [List.cons_append, c_str_cons, if_neg h1, ih h2, List.cons_append]

/-- When a NUL stands right behind the text, the C string is the one of the
text alone. -/
theorem c_str_append_terminated (data after : List Char) (h : c_str after = []) :
    c_str (data ++ after) = c_str data := by
  induction data with
  | nil => simpa using h
  | cons ch rest ih =>
    rw [List.cons_append, c_str_cons, c_str_cons, ih]

/-- What the C string of the text holds, the C string behind the pointer
holds too. -/
theorem mem_c_str_append (data after : List Char) (ch : Char) (h : ch ∈ c_str data) :
    ch ∈ c_str (data ++ after) := by
  induction data with
  | nil => simp [c_str] at h
  | cons c rest ih =>
    rw [c_str_cons] at h
    rw [List.cons_append, c_str_cons]
    by_cases h1 : c = Char.ofNat 0
    · simp [h1] at h
    · rw [if_neg h1] at h ⊢
      rcases List.mem_cons.mp h with h | h
      · exact List.mem_cons.mpr (Or.inl h)
      · exact List.mem_cons.mpr (Or.inr (ih h))

/-- A text with a NUL character is read up to that NUL, whatever stands in
the memory behind the text. -/
theorem c_str_append_of_nul (data after : List Char) (h : Char.ofNat 0 ∈ data) :
    c_str (data ++ after) = c_str data := by
  induction data with
  | nil => simp at h
  | cons ch rest ih =>
    rw [List.cons_append, c_str_cons, c_str_cons]
    by_cases h1 : ch = Char.ofNat 0
    · rw [if_pos h1, if_pos h1]
    · rw [if_neg h1, if_neg h1, ih]
      rcases List.mem_cons.mp h with h | h
      · exact absurd h.symm h1
      · exact h

/-! ## The address step of `TryParse` -/

theorem TryParse_v4 (input : String) (after : List Char) (result : IPAddress) (b : List Nat)
    (h : inet_pton4 (c_str (input.data ++ after)) = some b) :
    IPAddress.TryParse input after result = IPAddress.TryParse_mask input
      { type := IPAddressType.IP_ADDRESS_V4, address := b ++ result.address.drop 4,
        mask := 32 } := by
  simp [IPAddress.TryParse, inet_pton, h, IPV4_DEFAULT_MASK]

theorem TryParse_v6 (input : String) (after : List Char) (result : IPAddress) (b : List Nat)
    (h4 : inet_pton4 (c_str (input.data ++ after)) = none)
    (h6 : inet_pton6 (c_str (input.data ++ after)) = some b) :
    IPAddress.TryParse input after result = IPAddress.TryParse_mask input
      { type := IPAddressType.IP_ADDRESS_V6, address := b ++ result.address.drop 16,
        mask := 128 } := by
  simp [IPAddress.TryParse, inet_pton, h4, h6, IPV6_DEFAULT_MASK]

theorem TryParse_neither (input : String) (after : List Char) (result : IPAddress)
    (h4 : inet_pton4 (c_str (input.data ++ after)) = none)
    (h6 : inet_pton6 (c_str (input.data ++ after)) = none) :
    IPAddress.TryParse input after result =
      { ret := false, result := result,
        error_message := some ("Failed to convert string \"" ++ input ++
          "\" to inet: Failed to parse IP address") } := by
  simp only [IPAddress.TryParse, inet_pton, h4, h6, IPAddressError, AssignError]
  simp only [ne_eq, not_true_eq_false, ↓reduceIte, String.append_assoc]
  rfl

/-- A text with a `/` in its C-string part is rejected in the address step,
whatever stands in the memory behind the text. -/
theorem TryParse_slash_rejected (input : String) (after : List Char) (result : IPAddress)
    (h : '/' ∈ c_str input.data) :
    IPAddress.TryParse input after result =
      { ret := false, result := result,
        error_message := some ("Failed to convert string \"" ++ input ++
          "\" to inet: Failed to parse IP address") } := by
  have h2 := mem_c_str_append input.data after _ h
  apply TryParse_neither
  · cases h4 : inet_pton4 (c_str (input.data ++ after)) with
    | none => rfl
    | some b => exact absurd h2 (no_slash_of_address_chars _ (inet_pton4_address_chars _ _ h4))
  · cases h6 : inet_pton6 (c_str (input.data ++ after)) with
    | none => rfl
    | some b => exact absurd h2 (no_slash_of_address_chars _ (inet_pton6_address_chars _ _ h6))

/-- A text with a `/` and no NUL character is rejected in the address step,
whatever stands in the memory behind the text. -/
theorem TryParse_slash_no_nul_rejected (input : String) (after : List Char)
    (result : IPAddress) (hnul : Char.ofNat 0 ∉ input.data) (h : '/' ∈ input.data) :
    IPAddress.TryParse input after result =
      { ret := false, result := result,
        error_message := some ("Failed to convert string \"" ++ input ++
          "\" to inet: Failed to parse IP address") } := by
  apply TryParse_slash_rejected
  rw [c_str_of_no_nul _ hnul]
  exact h

/-- A text whose C-string part holds a character that is no hexadecimal
digit, `:` or `.` is rejected in the address step, whatever stands in the
memory behind the text. -/
theorem TryParse_other_char_rejected (input : String) (after : List Char)
    (result : IPAddress) (ch : Char) (h : ch ∈ c_str input.data) (hch : ¬ address_char ch) :
    IPAddress.TryParse input after result =
      { ret := false, result := result,
        error_message := some ("Failed to convert string \"" ++ input ++
          "\" to inet: Failed to parse IP address") } := by
  have h2 := mem_c_str_append input.data after _ h
  apply TryParse_neither
  · cases h4 : inet_pton4 (c_str (input.data ++ after)) with
    | none => rfl
    | some b => exact absurd (inet_pton4_address_chars _ _ h4 ch h2) hch
  · cases h6 : inet_pton6 (c_str (input.data ++ after)) with
    | none => rfl
    | some b => exact absurd (inet_pton6_address_chars _ _ h6 ch h2) hch

/-! ## Texts followed by a NUL in memory -/

theorem TryParse_of_ipv4 (text : List Char) (after : List Char) (b : List Nat)
    (result : IPAddress) (h : inet_pton4 text = some b) (hterm : c_str after = []) :
    IPAddress.TryParse (String.mk text) after result =
      { ret := true,
        result := { type := IPAddressType.IP_ADDRESS_V4, address := b ++ result.address.drop 4,
                    mask := 32 },
        error_message := none } := by
  have hchars := inet_pton4_address_chars text b h
  have hc : c_str ((String.mk text).data ++ after) = text := by
    rw [c_str_append_terminated _ _ hterm]
    exact c_str_of_address_chars text hchars
  have hs : '/' ∉ (String.mk text).data := no_slash_of_address_chars text hchars
  rw [TryParse_v4 (String.mk text) after _ b (by rw [hc]; exact h),
    TryParse_mask_no_slash _ _ hs]

theorem TryParse_of_ipv6 (text : List Char) (after : List Char) (b : List Nat)
    (result : IPAddress) (h4 : inet_pton4 text = none) (h : inet_pton6 text = some b)
    (hterm : c_str after = []) :
    IPAddress.TryParse (String.mk text) after result =
      { ret := true,
        result := { type := IPAddressType.IP_ADDRESS_V6, address := b ++ result.address.drop 16,
                    mask := 128 },
        error_message := none } := by
  have hchars := inet_pton6_address_chars text b h
  have hc : c_str ((String.mk text).data ++ after) = text := by
    rw [c_str_append_terminated _ _ hterm]
    exact c_str_of_address_chars text hchars
  have hs : '/' ∉ (String.mk text).data := no_slash_of_address_chars text hchars
  rw [TryParse_v6 (String.mk text) after _ b (by rw [hc]; exact h4) (by rw [hc]; exact h),
    TryParse_mask_no_slash _ _ hs]

theorem FromString_of_ipv4 (text : List Char) (after : List Char) (b : List Nat)
    (address0 : List Nat) (mask0 : Nat) (h : inet_pton4 text = some b)
    (hterm : c_str after = []) :
    IPAddress.FromString (String.mk text) after address0 mask0 = Except.ok
      { type := IPAddressType.IP_ADDRESS_V4, address := b ++ address0.drop 4, mask := 32 } := by
  simp only [IPAddress.FromString, TryParse_of_ipv4 text after b _ h hterm]
  rfl

theorem FromString_of_ipv6 (text : List Char) (after : List Char) (b : List Nat)
    (address0 : List Nat) (mask0 : Nat) (h4 : inet_pton4 text = none)
    (h : inet_pton6 text = some b) (hterm : c_str after = []) :
    IPAddress.FromString (String.mk text) after address0 mask0 = Except.ok
      { type := IPAddressType.IP_ADDRESS_V6, address := b ++ address0.drop 16, mask := 128 } := by
  simp only [IPAddress.FromString, TryParse_of_ipv6 text after b _ h4 h hterm]
  rfl

/-- On a text without NUL characters that a NUL follows in memory, `TryParse`
succeeds exactly when one of the conversions accepts the text, with the
family of the accepting conversion, the address it wrote and the family
default mask. -/
theorem TryParse_terminated (input : String) (after : List Char) (result : IPAddress)
    (hnul : Char.ofNat 0 ∉ input.data) (hterm : c_str after = []) :
    (∀ b, inet_pton4 input.data = some b →
      IPAddress.TryParse input after result =
        { ret := true,
          result := { type := IPAddressType.IP_ADDRESS_V4,
                      address := b ++ result.address.drop 4, mask := 32 },
          error_message := none }) ∧
    (∀ b, inet_pton4 input.data = none → inet_pton6 input.data = some b →
      IPAddress.TryParse input after result =
        { ret := true,
          result := { type := IPAddressType.IP_ADDRESS_V6,
                      address := b ++ result.address.drop 16, mask := 128 },
          error_message := none }) ∧
    (inet_pton4 input.data = none → inet_pton6 input.data = none →
      IPAddress.TryParse input after result =
        { ret := false, result := result,
          error_message := some ("Failed to convert string \"" ++ input ++
            "\" to inet: Failed to parse IP address") }) := by
  have hc : c_str (input.data ++ after) = input.data := by
    rw [c_str_append_terminated _ _ hterm, c_str_of_no_nul _ hnul]
  refine ⟨fun b h4 => ?_, fun b h4 h6 => ?_, fun h4 h6 => ?_⟩
  · exact TryParse_of_ipv4 input.data after b result h4 hterm
  · exact TryParse_of_ipv6 input.data after b result h4 h6 hterm
  · exact TryParse_neither input after result (by rw [hc]; exact h4) (by rw [hc]; exact h6)

/-- Every text `inet_ntop` writes, placed where a NUL follows it in memory,
is accepted by `FromString`, and `ToString` of the parsed value is the same
text again. -/
theorem FromString_ToString_terminated (src address0 : List Nat) (mask0 : Nat)
    (after : List Char) (hterm : c_str after = []) :
    (∃ v, IPAddress.FromString (String.mk (inet_ntop AddressFamily.AF_INET src)) after
        address0 mask0 = Except.ok v ∧
      v.ToString = String.mk (inet_ntop AddressFamily.AF_INET src)) ∧
    (∃ v, IPAddress.FromString (String.mk (inet_ntop AddressFamily.AF_INET6 src)) after
        address0 mask0 = Except.ok v ∧
      v.ToString = String.mk (inet_ntop AddressFamily.AF_INET6 src)) := by
  constructor
  · refine ⟨_, FromString_of_ipv4 _ after _ address0 mask0 (inet_pton4_inet_ntop4 src) hterm,
      ?_⟩
    rw [ToString_v4, if_neg (by simp), inet_ntop4_prefix]
    rfl
  · refine ⟨_, FromString_of_ipv6 _ after _ address0 mask0 (inet_pton4_inet_ntop6 src)
      (inet_pton6_inet_ntop6 src) hterm, ?_⟩
    rw [ToString_v6, if_neg (by simp), inet_ntop6_prefix]
    rfl

/-! ## The ways `TryParse` can end -/

/-- The three ways the address step of `TryParse` can end. -/
theorem TryParse_cases (input : String) (after : List Char) (result : IPAddress) :
    (inet_pton4 (c_str (input.data ++ after)) = none ∧
      inet_pton6 (c_str (input.data ++ after)) = none ∧
      IPAddress.TryParse input after result =
        { ret := false, result := result,
          error_message := some ("Failed to convert string \"" ++ input ++
            "\" to inet: Failed to parse IP address") }) ∨
    (∃ b, inet_pton4 (c_str (input.data ++ after)) = some b ∧
      IPAddress.TryParse input after result = IPAddress.TryParse_mask input
        { type := IPAddressType.IP_ADDRESS_V4, address := b ++ result.address.drop 4,
          mask := 32 }) ∨
    (∃ b, inet_pton4 (c_str (input.data ++ after)) = none ∧
      inet_pton6 (c_str (input.data ++ after)) = some b ∧
      IPAddress.TryParse input after result = IPAddress.TryParse_mask input
        { type := IPAddressType.IP_ADDRESS_V6, address := b ++ result.address.drop 16,
          mask := 128 }) := by
  cases h4 : inet_pton4 (c_str (input.data ++ after)) with
  | some b => exact Or.inr (Or.inl ⟨b, rfl, TryParse_v4 input after result b h4⟩)
  | none =>
    cases h6 : inet_pton6 (c_str (input.data ++ after)) with
    | some b => exact Or.inr (Or.inr ⟨b, rfl, rfl, TryParse_v6 input after result b h4 h6⟩)
    | none => exact Or.inl ⟨rfl, rfl, TryParse_neither input after result h4 h6⟩

/-- A failed `TryParse` always hands over a message. -/
theorem TryParse_false_message (input : String) (after : List Char) (result : IPAddress)
    (h : (IPAddress.TryParse input after result).ret = false) :
    ∃ msg, (IPAddress.TryParse input after result).error_message = some msg := by
  rcases TryParse_cases input after result with ⟨_, _, e⟩ | ⟨b, _, e⟩ | ⟨b, _, _, e⟩
  · rw [e]; exact ⟨_, rfl⟩
  · rw [e] at h ⊢
    rcases TryParse_mask_cases input
      { type := IPAddressType.IP_ADDRESS_V4, address := b ++ result.address.drop 4,
        mask := 32 } with e2 | e2 | e2 | ⟨mask, _, e2⟩ <;> rw [e2] at h ⊢
    · simp at h
    · exact ⟨_, rfl⟩
    · exact ⟨_, rfl⟩
    · simp at h
  · rw [e] at h ⊢
    rcases TryParse_mask_cases input
      { type := IPAddressType.IP_ADDRESS_V6, address := b ++ result.address.drop 16,
        mask := 128 } with e2 | e2 | e2 | ⟨mask, _, e2⟩ <;> rw [e2] at h ⊢
    · simp at h
    · exact ⟨_, rfl⟩
    · exact ⟨_, rfl⟩
    · simp at h

/-- A successful `TryParse` yields family V4 with a mask of at most 32 or
family V6 with a mask of at most 128. -/
theorem TryParse_true_shape (input : String) (after : List Char) (result : IPAddress)
    (h : (IPAddress.TryParse input after result).ret = true) :
    ((IPAddress.TryParse input after result).result.type = IPAddressType.IP_ADDRESS_V4 ∧
      (IPAddress.TryParse input after result).result.mask ≤ 32) ∨
    ((IPAddress.TryParse input after result).result.type = IPAddressType.IP_ADDRESS_V6 ∧
      (IPAddress.TryParse input after result).result.mask ≤ 128) := by
  rcases TryParse_cases input after result with ⟨_, _, e⟩ | ⟨b, _, e⟩ | ⟨b, _, _, e⟩
  · rw [e] at h; simp at h
  · rw [e] at h ⊢
    left
    rcases TryParse_mask_cases input
      { type := IPAddressType.IP_ADDRESS_V4, address := b ++ result.address.drop 4,
        mask := 32 } with e2 | e2 | e2 | ⟨mask, hm, e2⟩ <;> rw [e2] at h ⊢
    · exact ⟨rfl, le_refl _⟩
    · simp at h
    · simp at h
    · exact ⟨rfl, hm⟩
  · rw [e] at h ⊢
    right
    rcases TryParse_mask_cases input
      { type := IPAddressType.IP_ADDRESS_V6, address := b ++ result.address.drop 16,
        mask := 128 } with e2 | e2 | e2 | ⟨mask, hm, e2⟩ <;> rw [e2] at h ⊢
    · exact ⟨rfl, le_refl _⟩
    · simp at h
    · simp at h
    · exact ⟨rfl, hm⟩

/-- On a text without NUL characters `TryParse` can only fail in the address
step, and a success has the family default mask and the address converted
from the text together with the memory behind it. -/
theorem TryParse_no_nul_cases (input : String) (after : List Char) (result : IPAddress)
    (hnul : Char.ofNat 0 ∉ input.data) :
    IPAddress.TryParse input after result =
      { ret := false, result := result,
        error_message := some ("Failed to convert string \"" ++ input ++
          "\" to inet: Failed to parse IP address") } ∨
    (∃ b, inet_pton4 (input.data ++ c_str after) = some b ∧
      IPAddress.TryParse input after result =
      { ret := true,
        result := { type := IPAddressType.IP_ADDRESS_V4,
                    address := b ++ result.address.drop 4, mask := 32 },
        error_message := none }) ∨
    (∃ b, inet_pton4 (input.data ++ c_str after) = none ∧
      inet_pton6 (input.data ++ c_str after) = some b ∧
      IPAddress.TryParse input after result =
      { ret := true,
        result := { type := IPAddressType.IP_ADDRESS_V6,
                    address := b ++ result.address.drop 16, mask := 128 },
        error_message := none }) := by
  have hc := c_str_append_of_no_nul _ after hnul
  rcases TryParse_cases input after result with ⟨_, _, e⟩ | ⟨b, h4, e⟩ | ⟨b, h4, h6, e⟩
  · exact Or.inl e
  · right; left
    rw [hc] at h4
    refine ⟨b, h4, ?_⟩
    have hs : '/' ∉ input.data := fun hm =>
      no_slash_of_address_chars _ (inet_pton4_address_chars _ _ h4) (List.mem_append_left _ hm)
    rw [e, TryParse_mask_no_slash _ _ hs]
  · right; right
    rw [hc] at h4 h6
    refine ⟨b, h4, h6, ?_⟩
    have hs : '/' ∉ input.data := fun hm =>
      no_slash_of_address_chars _ (inet_pton6_address_chars _ _ h6) (List.mem_append_left _ hm)
    rw [e, TryParse_mask_no_slash _ _ hs]

/-- Flag, message, family and mask of `TryParse` do not depend on the prior
content of the result; of the address, the bytes the family uses do not. -/
theorem TryParse_prior_independent (input : String) (after : List Char) (r1 r2 : IPAddress) :
    (IPAddress.TryParse input after r1).ret = (IPAddress.TryParse input after r2).ret ∧
    (IPAddress.TryParse input after r1).error_message =
      (IPAddress.TryParse input after r2).error_message ∧
    ((IPAddress.TryParse input after r1).ret = true →
      (IPAddress.TryParse input after r1).result.type =
        (IPAddress.TryParse input after r2).result.type ∧
      (IPAddress.TryParse input after r1).result.mask =
        (IPAddress.TryParse input after r2).result.mask ∧
      ((IPAddress.TryParse input after r1).result.type = IPAddressType.IP_ADDRESS_V4 →
        (IPAddress.TryParse input after r1).result.address.take 4 =
          (IPAddress.TryParse input after r2).result.address.take 4) ∧
      ((IPAddress.TryParse input after r1).result.type = IPAddressType.IP_ADDRESS_V6 →
        (IPAddress.TryParse input after r1).result.address.take 16 =
          (IPAddress.TryParse input after r2).result.address.take 16)) := by
  cases h4 : inet_pton4 (c_str (input.data ++ after)) with
  | some b =>
    obtain ⟨ok, msg, mask, hu⟩ := TryParse_mask_uniform input IPAddressType.IP_ADDRESS_V4 32
    have hl := (inet_pton4_shape _ _ h4).1
    rw [TryParse_v4 input after r1 b h4, TryParse_v4 input after r2 b h4, hu, hu]
    refine ⟨rfl, rfl, fun _ => ⟨rfl, rfl, fun _ => ?_, fun h => ?_⟩⟩
    · simp [List.take_append_of_le_length, hl]
    · cases h
  | none =>
    cases h6 : inet_pton6 (c_str (input.data ++ after)) with
    | some b =>
      obtain ⟨ok, msg, mask, hu⟩ := TryParse_mask_uniform input IPAddressType.IP_ADDRESS_V6 128
      have hl := (inet_pton6_shape _ _ h6).1
      rw [TryParse_v6 input after r1 b h4 h6, TryParse_v6 input after r2 b h4 h6, hu, hu]
      refine ⟨rfl, rfl, fun _ => ⟨rfl, rfl, fun h => ?_, fun _ => ?_⟩⟩
      · cases h
      · simp [List.take_append_of_le_length, hl]
    | none =>
      rw [TryParse_neither input after r1 h4 h6, TryParse_neither input after r2 h4 h6]
      exact ⟨rfl, rfl, fun h => by simp at h⟩

/-- On a text without NUL characters, parsing the `ToString` of a
successfully parsed value, at a place in memory where a NUL follows it, into
an object that holds the same address bytes gives the same value again. -/
theorem TryParse_ToString_no_nul (input : String) (after after2 : List Char)
    (result result2 : IPAddress)
    (hnul : Char.ofNat 0 ∉ input.data)
    (hok : (IPAddress.TryParse input after result).ret = true)
    (haddr : result2.address = (IPAddress.TryParse input after result).result.address)
    (hterm : c_str after2 = []) :
    IPAddress.TryParse (IPAddress.TryParse input after result).result.ToString after2 result2 =
      { ret := true, result := (IPAddress.TryParse input after result).result,
        error_message := none } := by
  rcases TryParse_no_nul_cases input after result hnul with e | ⟨b, h4, e⟩ | ⟨b, _, h6, e⟩
  · rw [e] at hok
    simp at hok
  · obtain ⟨hl, hb⟩ := inet_pton4_shape _ _ h4
    rw [e] at haddr ⊢
    simp only at haddr ⊢
    rw [ToString_v4, if_neg (by simp)]
    have hp : inet_pton4 (inet_ntop4 (b ++ List.drop 4 result.address)) = some b := by
      rw [← bytes4_eq b hl hb, inet_ntop4_prefix, inet_pton4_inet_ntop4, bytes4_eq b hl hb]
    rw [TryParse_of_ipv4 _ after2 b result2 hp hterm, haddr]
    simp [hl]
  · obtain ⟨hl, hb⟩ := inet_pton6_shape _ _ h6
    rw [e] at haddr ⊢
    simp only at haddr ⊢
    rw [ToString_v6, if_neg (by simp)]
    have hn : inet_ntop6 (b ++ List.drop 16 result.address) = inet_ntop6 b := by
      rw [← bytes16_eq b hl hb, inet_ntop6_prefix, bytes16_eq b hl hb]
    have hp : inet_pton6 (inet_ntop6 (b ++ List.drop 16 result.address)) = some b := by
      rw [hn, inet_pton6_inet_ntop6, bytes16_eq b hl hb]
    have hp4 : inet_pton4 (inet_ntop6 (b ++ List.drop 16 result.address)) = none :=
      inet_pton4_inet_ntop6 _
    rw [TryParse_of_ipv6 _ after2 b result2 hp4 hp hterm, haddr]
    simp [hl]

/-! ## The mask step, where it is reached -/

/-- Where the mask step is reached: when the address step succeeds and the
first `/` of the text is followed only by decimal digits whose value is above
255, `TryParse` returns false with the mask syntax message, not the range
message: the 8-bit cast rejects the number. The address step succeeds on such
a text only when a NUL character stands before the `/`. -/
theorem TryParse_mask_step_above_255 (input : String) (after : List Char) (result : IPAddress)
    (haddr : (inet_pton AddressFamily.AF_INET (input.data ++ after) result.address).1 = 1 ∨
      (inet_pton AddressFamily.AF_INET6 (input.data ++ after) result.address).1 = 1)
    (hslash : '/' ∈ input.data)
    (hdigits : ∀ ch ∈ input.data.drop (find_slash input.data + 1),
      48 ≤ ch.toNat ∧ ch.toNat ≤ 57)
    (hval : 255 < (input.data.drop (find_slash input.data + 1)).foldl
      (fun acc ch => acc * 10 + (ch.toNat - 48)) 0) :
    (IPAddress.TryParse input after result).ret = false ∧
    (IPAddress.TryParse input after result).error_message =
      some ("Failed to convert string \"" ++ input ++
        "\" to inet: Faied to parse IP network mask") ∧
    (IPAddress.TryParse input after result).error_message ≠
      some ("Failed to convert string \"" ++ input ++
        "\" to inet: Expected a number between 0-32 for IPv4 and 0-128 for IPv6") := by
  have hlt := find_slash_lt _ hslash
  have hskip := skip_digits_all _ hdigits
  have hmask : ∀ r : IPAddress, IPAddress.TryParse_mask input r =
      { ret := false, result := r,
        error_message := some ("Failed to convert string \"" ++ input ++
          "\" to inet: Faied to parse IP network mask") } := by
    intro r
    unfold IPAddress.TryParse_mask
    simp only []
    rw [if_neg (by omega), hskip]
    have : find_slash input.data + 1 + (List.drop (find_slash input.data + 1) input.data).length
        - (find_slash input.data + 1) =
        (List.drop (find_slash input.data + 1) input.data).length := by omega
    rw [this, List.take_length, TryCast_uint8_above_255 _ hval]
    simp only [IPAddressError, AssignError, String.append_assoc]
    rfl
  have key : IPAddress.TryParse input after result =
      { ret := false, result := (IPAddress.TryParse input after result).result,
        error_message := some ("Failed to convert string \"" ++ input ++
          "\" to inet: Faied to parse IP network mask") } := by
    rcases TryParse_cases input after result with ⟨h4, h6, _⟩ | ⟨b, _, e⟩ | ⟨b, _, _, e⟩
    · rcases haddr with h | h
      · simp [inet_pton, h4] at h
      · simp [inet_pton, h6] at h
    · rw [e, hmask]
    · rw [e, hmask]
  rw [key]
  exact ⟨rfl, rfl, mask_messages_differ input⟩

theorem TryParse_mask_step_above_255_example :
    (((inet_pton AddressFamily.AF_INET ("1.2.3.4\x00/256".data ++ [])
          (List.replicate 16 0)).1 = 1 ∨
        (inet_pton AddressFamily.AF_INET6 ("1.2.3.4\x00/256".data ++ [])
          (List.replicate 16 0)).1 = 1) ∧
      '/' ∈ "1.2.3.4\x00/256".data) ∧
    (IPAddress.TryParse "1.2.3.4\x00/256" []
        (IPAddress.IPAddress_default (List.replicate 16 0) 0)).error_message =
      some "Failed to convert string \"1.2.3.4\x00/256\" to inet: Faied to parse IP network mask" :=
  ⟨⟨Or.inl (by decide), by decide⟩,
   (TryParse_mask_step_above_255 "1.2.3.4\x00/256" []
      (IPAddress.IPAddress_default (List.replicate 16 0) 0)
      (Or.inl (by decide)) (by decide) (by decide) (by decide)).2.1⟩

/-! ## Claims -/

/-- C1: the text `192.168.100.2` holds no `/` and converts to the address
192.168.100.2, which is what `TryParse` gives when a NUL follows the text in
memory; when the character `5` follows it, `TryParse` succeeds with the
address 192.168.100.25: `inet_pton` reads from the data pointer up to the next
NUL, not the `size` bytes of the text. In the same way `2001:db8::1` followed
by `2` is parsed as `2001:db8::12`; and the text `1.2.3.4`, a NUL character,
`garbage` holds no `/` and is accepted by neither conversion as a text, yet
`TryParse` succeeds on it whatever follows it in memory. -/
theorem TryParse_reads_past_text (after : List Char) (result : IPAddress) :
    ('/' ∉ "192.168.100.2".data ∧
      inet_pton4 "192.168.100.2".data = some [192, 168, 100, 2] ∧
      IPAddress.TryParse "192.168.100.2" [] result =
        { ret := true,
          result := { type := IPAddressType.IP_ADDRESS_V4,
                      address := [192, 168, 100, 2] ++ result.address.drop 4, mask := 32 },
          error_message := none } ∧
      IPAddress.TryParse "192.168.100.2" ['5'] result =
        { ret := true,
          result := { type := IPAddressType.IP_ADDRESS_V4,
                      address := [192, 168, 100, 25] ++ result.address.drop 4, mask := 32 },
          error_message := none }) ∧
    ('/' ∉ "2001:db8::1".data ∧
      inet_pton6 "2001:db8::1".data =
        some [32, 1, 13, 184, 0, 0, 0, 0, 0, 0, 0, 0, 0, 0, 0, 1] ∧
      IPAddress.TryParse "2001:db8::1" ['2'] result =
        { ret := true,
          result := { type := IPAddressType.IP_ADDRESS_V6,
                      address := [32, 1, 13, 184, 0, 0, 0, 0, 0, 0, 0, 0, 0, 0, 0, 18] ++
                        result.address.drop 16,
                      mask := 128 },
          error_message := none }) ∧
    ('/' ∉ "1.2.3.4\x00garbage".data ∧
      inet_pton4 "1.2.3.4\x00garbage".data = none ∧
      inet_pton6 "1.2.3.4\x00garbage".data = none ∧
      IPAddress.TryParse "1.2.3.4\x00garbage" after result =
        { ret := true,
          result := { type := IPAddressType.IP_ADDRESS_V4,
                      address := [1, 2, 3, 4] ++ result.address.drop 4, mask := 32 },
          error_message := none }) := by
  refine ⟨⟨by decide, by decide, ?_, ?_⟩, ⟨by decide, by decide, ?_⟩,
    ⟨by decide, by decide, by decide, ?_⟩⟩
  · rw [TryParse_v4 "192.168.100.2" [] result [192, 168, 100, 2] (by decide),
      TryParse_mask_no_slash _ _ (by decide)]
  · rw [TryParse_v4 "192.168.100.2" ['5'] result [192, 168, 100, 25] (by decide),
      TryParse_mask_no_slash _ _ (by decide)]
  · rw [TryParse_v6 "2001:db8::1" ['2'] result
        [32, 1, 13, 184, 0, 0, 0, 0, 0, 0, 0, 0, 0, 0, 0, 18] (by decide) (by decide),
      TryParse_mask_no_slash _ _ (by decide)]
  · rw [TryParse_v4 "1.2.3.4\x00garbage" after result [1, 2, 3, 4]
        (by rw [c_str_append_of_nul _ _ (by decide)]; decide),
      TryParse_mask_no_slash _ _ (by decide)]

/-- C2: the text `192.168.100.` is a valid address for neither family, yet
when the character `7` follows it in memory `TryParse` returns true, with the
address 192.168.100.7 and no message; and the text `1.2.3.4`, a NUL character,
`garbage` is a valid address for neither family, yet `TryParse` returns true
on it whatever follows it in memory. The texts `not.an.address` and
`999.999.999.999` are rejected with the stated message wherever they stand. -/
theorem TryParse_invalid_text_accepted (after : List Char) (result : IPAddress) :
    (inet_pton4 "192.168.100.".data = none ∧ inet_pton6 "192.168.100.".data = none ∧
      IPAddress.TryParse "192.168.100." ['7'] result =
        { ret := true,
          result := { type := IPAddressType.IP_ADDRESS_V4,
                      address := [192, 168, 100, 7] ++ result.address.drop 4, mask := 32 },
          error_message := none }) ∧
    (inet_pton4 "1.2.3.4\x00garbage".data = none ∧
      inet_pton6 "1.2.3.4\x00garbage".data = none ∧
      (IPAddress.TryParse "1.2.3.4\x00garbage" after result).ret = true ∧
      (IPAddress.TryParse "1.2.3.4\x00garbage" after result).error_message = none) ∧
    IPAddress.TryParse "not.an.address" after result =
      { ret := false, result := result,
        error_message := some
          "Failed to convert string \"not.an.address\" to inet: Failed to parse IP address" } ∧
    IPAddress.TryParse "999.999.999.999" after result =
      { ret := false, result := result,
        error_message := some
          "Failed to convert string \"999.999.999.999\" to inet: Failed to parse IP address" } := by
  have e : IPAddress.TryParse "1.2.3.4\x00garbage" after result =
      { ret := true,
        result := { type := IPAddressType.IP_ADDRESS_V4,
                    address := [1, 2, 3, 4] ++ result.address.drop 4, mask := 32 },
        error_message := none } := by
    rw [TryParse_v4 "1.2.3.4\x00garbage" after result [1, 2, 3, 4]
        (by rw [c_str_append_of_nul _ _ (by decide)]; decide),
      TryParse_mask_no_slash _ _ (by decide)]
  refine ⟨⟨by decide, by decide, ?_⟩, ⟨by decide, by decide, by rw [e], by rw [e]⟩,
    ?_, ?_⟩
  · rw [TryParse_v4 "192.168.100." ['7'] result [192, 168, 100, 7] (by decide),
      TryParse_mask_no_slash _ _ (by decide)]
  · exact TryParse_other_char_rejected "not.an.address" after result 'n' (by decide)
      (by simp [address_char, hex_digit_value])
  · have hc := c_str_append_of_no_nul "999.999.999.999".data after (by decide)
    exact TryParse_neither "999.999.999.999" after result (by rw [hc]; rfl) (by rw [hc]; rfl)

/-- C3: the address text `192.168.1.1`, with a NUL behind it in memory, is
accepted on its own as a V4 value, but `192.168.1.1/24` is rejected in the
address step, whatever follows it in memory: `inet_pton` is given the whole
text, suffix included, and accepts it for neither family. -/
theorem TryParse_address_with_mask_24 (after : List Char) (result : IPAddress) :
    IPAddress.TryParse "192.168.1.1" [] result =
      { ret := true,
        result := { type := IPAddressType.IP_ADDRESS_V4,
                    address := [192, 168, 1, 1] ++ result.address.drop 4, mask := 32 },
        error_message := none } ∧
    IPAddress.TryParse "192.168.1.1/24" after result =
      { ret := false, result := result,
        error_message := some
          "Failed to convert string \"192.168.1.1/24\" to inet: Failed to parse IP address" } :=
  ⟨by rw [TryParse_v4 "192.168.1.1" [] result [192, 168, 1, 1] (by decide),
          TryParse_mask_no_slash _ _ (by decide)],
   TryParse_slash_no_nul_rejected "192.168.1.1/24" after result (by decide) (by decide)⟩

/-- C4: the texts `192.168.1.1/33` and `::1/129` are rejected, but in the
address step and with the address message, not with the mask range message,
whatever follows the text in memory. -/
theorem TryParse_mask_out_of_range (after : List Char) (result : IPAddress) :
    IPAddress.TryParse "192.168.1.1/33" after result =
      { ret := false, result := result,
        error_message := some
          "Failed to convert string \"192.168.1.1/33\" to inet: Failed to parse IP address" } ∧
    IPAddress.TryParse "::1/129" after result =
      { ret := false, result := result,
        error_message := some
          "Failed to convert string \"::1/129\" to inet: Failed to parse IP address" } ∧
    (IPAddress.TryParse "192.168.1.1/33" after result).error_message ≠ some
      "Failed to convert string \"192.168.1.1/33\" to inet: Expected a number between 0-32 for IPv4 and 0-128 for IPv6" ∧
    (IPAddress.TryParse "::1/129" after result).error_message ≠ some
      "Failed to convert string \"::1/129\" to inet: Expected a number between 0-32 for IPv4 and 0-128 for IPv6" := by
  have h1 := TryParse_slash_no_nul_rejected "192.168.1.1/33" after result (by decide) (by decide)
  have h2 := TryParse_slash_no_nul_rejected "::1/129" after result (by decide) (by decide)
  refine ⟨h1, h2, ?_, ?_⟩
  · rw [h1]; dsimp only; decide
  · rw [h2]; dsimp only; decide

/-- C5: the texts `10.0.0.1/abc`, `10.0.0.1/` and `10.0.0.1/` followed by
`-1` are rejected, but in the address step and with the address message, not
with the mask syntax message, whatever follows the text in memory. Where the
mask scan is reached at all (the address conversion stops at a NUL character
in front of the `/`), digits followed by garbage are accepted: the scan stops
at the first non-digit and the rest of the text is never looked at. -/
theorem TryParse_malformed_mask (after : List Char) (result : IPAddress) :
    IPAddress.TryParse "10.0.0.1/abc" after result =
      { ret := false, result := result,
        error_message := some
          "Failed to convert string \"10.0.0.1/abc\" to inet: Failed to parse IP address" } ∧
    IPAddress.TryParse "10.0.0.1/" after result =
      { ret := false, result := result,
        error_message := some
          "Failed to convert string \"10.0.0.1/\" to inet: Failed to parse IP address" } ∧
    IPAddress.TryParse "10.0.0.1/-1" after result =
      { ret := false, result := result,
        error_message := some
          "Failed to convert string \"10.0.0.1/-1\" to inet: Failed to parse IP address" } ∧
    (IPAddress.TryParse "10.0.0.1/abc" after result).error_message ≠ some
      "Failed to convert string \"10.0.0.1/abc\" to inet: Faied to parse IP network mask" ∧
    IPAddress.TryParse "10.0.0.1\x00/24abc" after result =
      { ret := true,
        result := { type := IPAddressType.IP_ADDRESS_V4,
                    address := [10, 0, 0, 1] ++ result.address.drop 4, mask := 24 },
        error_message := none } := by
  have h1 := TryParse_slash_no_nul_rejected "10.0.0.1/abc" after result (by decide) (by decide)
  refine ⟨h1, TryParse_slash_no_nul_rejected "10.0.0.1/" after result (by decide) (by decide),
    TryParse_slash_no_nul_rejected "10.0.0.1/-1" after result (by decide) (by decide), ?_, ?_⟩
  · rw [h1]; dsimp only; decide
  · rw [TryParse_v4 "10.0.0.1\x00/24abc" after result [10, 0, 0, 1]
      (by rw [c_str_append_of_nul _ _ (by decide)]; decide)]
    rfl

/-- C6: for a V4 or V6 value, `ToString` is the `inet_ntop` text of the
address for the family, followed by `/` and the decimal mask exactly when the
mask differs from 32 (V4) or 128 (V6), and by nothing otherwise. -/
theorem ToString_format (v : IPAddress)
    (h : v.type = IPAddressType.IP_ADDRESS_V4 ∨ v.type = IPAddressType.IP_ADDRESS_V6) :
    (v.type = IPAddressType.IP_ADDRESS_V4 → v.mask = 32 →
      v.ToString = String.mk (inet_ntop AddressFamily.AF_INET v.address)) ∧
    (v.type = IPAddressType.IP_ADDRESS_V4 → v.mask ≠ 32 →
      v.ToString = String.mk (inet_ntop AddressFamily.AF_INET v.address) ++ "/" ++
        String.mk (fmt_u v.mask)) ∧
    (v.type = IPAddressType.IP_ADDRESS_V6 → v.mask = 128 →
      v.ToString = String.mk (inet_ntop AddressFamily.AF_INET6 v.address)) ∧
    (v.type = IPAddressType.IP_ADDRESS_V6 → v.mask ≠ 128 →
      v.ToString = String.mk (inet_ntop AddressFamily.AF_INET6 v.address) ++ "/" ++
        String.mk (fmt_u v.mask)) := by
  rcases h with h | h
  · refine ⟨?_, ?_, ?_, ?_⟩
    · intro _ hm
      simp [IPAddress.ToString, h, hm, IPV4_DEFAULT_MASK]
    · intro _ hm
      simp [IPAddress.ToString, h, hm, IPV4_DEFAULT_MASK, String.append_assoc]
    · intro h2; rw [h] at h2; cases h2
    · intro h2; rw [h] at h2; cases h2
  · refine ⟨?_, ?_, ?_, ?_⟩
    · intro h2; rw [h] at h2; cases h2
    · intro h2; rw [h] at h2; cases h2
    · intro _ hm
      simp [IPAddress.ToString, h, hm, IPV6_DEFAULT_MASK]
    · intro _ hm
      simp [IPAddress.ToString, h, hm, IPV6_DEFAULT_MASK, String.append_assoc]

theorem ToString_format_witness :
    (IPAddressType.IP_ADDRESS_V4 = IPAddressType.IP_ADDRESS_V4 ∨
      IPAddressType.IP_ADDRESS_V4 = IPAddressType.IP_ADDRESS_V6) ∧
    IPAddress.ToString { type := IPAddressType.IP_ADDRESS_V4,
                         address := [192, 168, 1, 1, 0, 0, 0, 0, 0, 0, 0, 0, 0, 0, 0, 0],
                         mask := 24 } = "192.168.1.1/24" :=
  ⟨Or.inl rfl,
   ((ToString_format { type := IPAddressType.IP_ADDRESS_V4,
                        address := [192, 168, 1, 1, 0, 0, 0, 0, 0, 0, 0, 0, 0, 0, 0, 0],
                        mask := 24 } (Or.inl rfl)).2.1 rfl (by decide)).trans (by decide)⟩

/-- C7: the text `192.168.100.2` is canonical (it is what `inet_ntop` writes
for the bytes 192, 168, 100, 2) and comes back from `FromString` and
`ToString` when a NUL follows it in memory; when the character `5` follows it,
`FromString` returns the address 192.168.100.25 and `ToString` gives
`192.168.100.25`, not the text. In the same way the canonical text
`2001:db8::1` followed by `2` comes back as `2001:db8::12`. -/
theorem FromString_ToString_past_text (address0 : List Nat) (mask0 : Nat) :
    (inet_ntop AddressFamily.AF_INET [192, 168, 100, 2] = "192.168.100.2".data ∧
      IPAddress.FromString "192.168.100.2" [] address0 mask0 = Except.ok
        { type := IPAddressType.IP_ADDRESS_V4,
          address := [192, 168, 100, 2] ++ address0.drop 4, mask := 32 } ∧
      IPAddress.ToString
        { type := IPAddressType.IP_ADDRESS_V4,
          address := [192, 168, 100, 2] ++ address0.drop 4, mask := 32 } = "192.168.100.2" ∧
      IPAddress.FromString "192.168.100.2" ['5'] address0 mask0 = Except.ok
        { type := IPAddressType.IP_ADDRESS_V4,
          address := [192, 168, 100, 25] ++ address0.drop 4, mask := 32 } ∧
      IPAddress.ToString
        { type := IPAddressType.IP_ADDRESS_V4,
          address := [192, 168, 100, 25] ++ address0.drop 4, mask := 32 } = "192.168.100.25") ∧
    (inet_ntop AddressFamily.AF_INET6 [32, 1, 13, 184, 0, 0, 0, 0, 0, 0, 0, 0, 0, 0, 0, 1] =
        "2001:db8::1".data ∧
      IPAddress.FromString "2001:db8::1" ['2'] address0 mask0 = Except.ok
        { type := IPAddressType.IP_ADDRESS_V6,
          address := [32, 1, 13, 184, 0, 0, 0, 0, 0, 0, 0, 0, 0, 0, 0, 18] ++ address0.drop 16,
          mask := 128 } ∧
      IPAddress.ToString
        { type := IPAddressType.IP_ADDRESS_V6,
          address := [32, 1, 13, 184, 0, 0, 0, 0, 0, 0, 0, 0, 0, 0, 0, 18] ++ address0.drop 16,
          mask := 128 } = "2001:db8::12") := by
  refine ⟨⟨by decide, ?_, ?_, ?_, ?_⟩, ⟨by decide, ?_, ?_⟩⟩
  · simp only [IPAddress.FromString,
      TryParse_v4 "192.168.100.2" [] _ [192, 168, 100, 2] (by decide),
      TryParse_mask_no_slash "192.168.100.2" _ (by decide)]
    rfl
  · rw [ToString_v4, List.cons_append, List.cons_append, List.cons_append, List.cons_append,
      inet_ntop4_cons]
    decide
  · simp only [IPAddress.FromString,
      TryParse_v4 "192.168.100.2" ['5'] _ [192, 168, 100, 25] (by decide),
      TryParse_mask_no_slash "192.168.100.2" _ (by decide)]
    rfl
  · rw [ToString_v4, List.cons_append, List.cons_append, List.cons_append, List.cons_append,
      inet_ntop4_cons]
    decide
  · simp only [IPAddress.FromString,
      TryParse_v6 "2001:db8::1" ['2'] _ [32, 1, 13, 184, 0, 0, 0, 0, 0, 0, 0, 0, 0, 0, 0, 18]
        (by decide) (by decide),
      TryParse_mask_no_slash "2001:db8::1" _ (by decide)]
    rfl
  · rw [ToString_v6, if_neg (by simp), inet_ntop6_append _ _ (by decide) (by decide)]
    decide

/-- C8: `FromString` throws on `192.168.1.1/24`, whatever follows the text in
memory, so the text does not round trip: the address step rejects the mask
suffix. -/
theorem FromString_mask_24_throws (after : List Char) (address0 : List Nat) (mask0 : Nat) :
    IPAddress.FromString "192.168.1.1/24" after address0 mask0 = Except.error
      "Failed to convert string \"192.168.1.1/24\" to inet: Failed to parse IP address" := by
  simp only [IPAddress.FromString,
    TryParse_slash_no_nul_rejected "192.168.1.1/24" after _ (by decide) (by decide)]
  rfl

/-- C9: `FromString` throws on `10.0.0.1/32` and on `::1/128`, whatever
follows the text in memory, so an explicit default mask suffix is not
accepted: the address step rejects it. -/
theorem FromString_default_mask_throws (after : List Char) (address0 : List Nat)
    (mask0 : Nat) :
    IPAddress.FromString "10.0.0.1/32" after address0 mask0 = Except.error
      "Failed to convert string \"10.0.0.1/32\" to inet: Failed to parse IP address" ∧
    IPAddress.FromString "::1/128" after address0 mask0 = Except.error
      "Failed to convert string \"::1/128\" to inet: Failed to parse IP address" := by
  constructor
  · simp only [IPAddress.FromString,
      TryParse_slash_no_nul_rejected "10.0.0.1/32" after _ (by decide) (by decide)]
    rfl
  · simp only [IPAddress.FromString,
      TryParse_slash_no_nul_rejected "::1/128" after _ (by decide) (by decide)]
    rfl

/-- C10: the text `1.2.3.4`, a NUL character, `/24` is parsed (the address
conversion reads a C string and stops at the NUL, the mask scan goes on to the
`/`) into the V4 value 1.2.3.4 with mask 24; `ToString` renders that value as
`1.2.3.4/24`, and `TryParse` rejects that text, whatever follows the texts in
memory. Moreover the twelve address bytes a V4 parse does not write are kept
from the result object of each call, so parsing `1.2.3.4` and parsing its
`ToString` (each with a NUL behind it) into differently filled objects gives
different addresses. -/
theorem TryParse_ToString_not_reparsed (after after2 : List Char)
    (result result2 : IPAddress) :
    IPAddress.TryParse "1.2.3.4\x00/24" after result =
      { ret := true,
        result := { type := IPAddressType.IP_ADDRESS_V4,
                    address := [1, 2, 3, 4] ++ result.address.drop 4, mask := 24 },
        error_message := none } ∧
    IPAddress.ToString { type := IPAddressType.IP_ADDRESS_V4,
                         address := [1, 2, 3, 4] ++ result.address.drop 4, mask := 24 } =
      "1.2.3.4/24" ∧
    IPAddress.TryParse "1.2.3.4/24" after2 result2 =
      { ret := false, result := result2,
        error_message := some
          "Failed to convert string \"1.2.3.4/24\" to inet: Failed to parse IP address" } ∧
    (IPAddress.TryParse
        (IPAddress.TryParse "1.2.3.4" []
          (IPAddress.IPAddress_default (List.replicate 16 170) 0)).result.ToString []
        (IPAddress.IPAddress_default (List.replicate 16 0) 0)).result.address ≠
      (IPAddress.TryParse "1.2.3.4" []
        (IPAddress.IPAddress_default (List.replicate 16 170) 0)).result.address := by
  refine ⟨?_, ?_,
    TryParse_slash_no_nul_rejected "1.2.3.4/24" after2 result2 (by decide) (by decide),
    by decide⟩
  · rw [TryParse_v4 "1.2.3.4\x00/24" after result [1, 2, 3, 4]
      (by rw [c_str_append_of_nul _ _ (by decide)]; decide)]
    rfl
  · rw [ToString_v4, List.cons_append, List.cons_append, List.cons_append, List.cons_append,
      inet_ntop4_cons]
    decide

/-- C11: `FromString` throws exactly when `TryParse`, run on a default
constructed result, returns false, and then with the message `TryParse` handed
over; when `TryParse` returns true, `FromString` returns the value it wrote;
this holds whatever follows the text in memory. -/
theorem FromString_follows_TryParse (input : String) (after : List Char)
    (address0 : List Nat) (mask0 : Nat) :
    ((IPAddress.TryParse input after (IPAddress.IPAddress_default address0 mask0)).ret = false ↔
      ∃ msg, IPAddress.FromString input after address0 mask0 = Except.error msg) ∧
    ((IPAddress.TryParse input after (IPAddress.IPAddress_default address0 mask0)).ret = false →
      ∃ msg,
        (IPAddress.TryParse input after
            (IPAddress.IPAddress_default address0 mask0)).error_message = some msg ∧
        IPAddress.FromString input after address0 mask0 = Except.error msg) ∧
    ((IPAddress.TryParse input after (IPAddress.IPAddress_default address0 mask0)).ret = true →
      IPAddress.FromString input after address0 mask0 = Except.ok
        (IPAddress.TryParse input after (IPAddress.IPAddress_default address0 mask0)).result) ∧
    (IPAddress.IPAddress_default address0 mask0).type = IPAddressType.IP_ADDRESS_INVALID := by
  refine ⟨?_, ?_, ?_, rfl⟩
  · constructor
    · intro h
      refine ⟨(IPAddress.TryParse input after
        (IPAddress.IPAddress_default address0 mask0)).error_message.getD "", ?_⟩
      simp [IPAddress.FromString, h]
    · rintro ⟨msg, h⟩
      cases hr : (IPAddress.TryParse input after (IPAddress.IPAddress_default address0 mask0)).ret
      · rfl
      · simp [IPAddress.FromString, hr] at h
  · intro h
    obtain ⟨msg, hm⟩ := TryParse_false_message _ _ _ h
    exact ⟨msg, hm, by simp [IPAddress.FromString, h, hm]⟩
  · intro h
    simp [IPAddress.FromString, h]

theorem FromString_follows_TryParse_witness :
    ((IPAddress.TryParse "::1/129" [] (IPAddress.IPAddress_default [] 0)).ret = false ∧
      IPAddress.FromString "::1/129" [] [] 0 = Except.error
        "Failed to convert string \"::1/129\" to inet: Failed to parse IP address") ∧
    ((IPAddress.TryParse "::1" [] (IPAddress.IPAddress_default [] 0)).ret = true ∧
      IPAddress.FromString "::1" [] [] 0 = Except.ok
        { type := IPAddressType.IP_ADDRESS_V6,
          address := [0, 0, 0, 0, 0, 0, 0, 0, 0, 0, 0, 0, 0, 0, 0, 1], mask := 128 }) :=
  ⟨⟨by decide,
    by
      obtain ⟨msg, h1, h2⟩ := (FromString_follows_TryParse "::1/129" [] [] 0).2.1 (by decide)
      rw [h2]
      have : (IPAddress.TryParse "::1/129" [] (IPAddress.IPAddress_default [] 0)).error_message =
          some "Failed to convert string \"::1/129\" to inet: Failed to parse IP address" := by
        decide
      rw [this] at h1
      cases h1
      rfl⟩,
   ⟨by decide,
    ((FromString_follows_TryParse "::1" [] [] 0).2.2.1 (by decide)).trans rfl⟩⟩

/-- C12 (as stated, refuted): on the text `1.2.3.4`, a NUL character, `/33`
the address part is accepted and the mask is rejected; `TryParse` returns
false and the caller's result, which held family Invalid, now holds the V4
address with mask 32. -/
theorem TryParse_failed_mask_overwrites_result :
    IPAddress.TryParse "1.2.3.4\x00/33" []
        (IPAddress.IPAddress_default (List.replicate 16 0) 0) =
      { ret := false,
        result := { type := IPAddressType.IP_ADDRESS_V4,
                    address := [1, 2, 3, 4, 0, 0, 0, 0, 0, 0, 0, 0, 0, 0, 0, 0], mask := 32 },
        error_message := some
          "Failed to convert string \"1.2.3.4\x00/33\" to inet: Expected a number between 0-32 for IPv4 and 0-128 for IPv6" } ∧
    (IPAddress.TryParse "1.2.3.4\x00/33" []
        (IPAddress.IPAddress_default (List.replicate 16 0) 0)).result ≠
      IPAddress.IPAddress_default (List.replicate 16 0) 0 := by
  constructor <;> decide

/-- C12 (amended): when `TryParse` returns false, either the address step
failed, with the address message and the caller's result exactly as it was,
or the address was accepted and the mask suffix rejected, and then the result
holds the accepted family, the converted address and the family default mask;
on a text without NUL characters only the first case occurs. This holds
whatever follows the text in memory. -/
theorem TryParse_failed_result (input : String) (after : List Char) (result : IPAddress)
    (h : (IPAddress.TryParse input after result).ret = false) :
    (((IPAddress.TryParse input after result).error_message =
        some ("Failed to convert string \"" ++ input ++
          "\" to inet: Failed to parse IP address") ∧
      (IPAddress.TryParse input after result).result = result) ∨
     (((IPAddress.TryParse input after result).error_message =
          some ("Failed to convert string \"" ++ input ++
            "\" to inet: Faied to parse IP network mask") ∨
        (IPAddress.TryParse input after result).error_message =
          some ("Failed to convert string \"" ++ input ++
            "\" to inet: Expected a number between 0-32 for IPv4 and 0-128 for IPv6")) ∧
      ((IPAddress.TryParse input after result).result =
          { type := IPAddressType.IP_ADDRESS_V4,
            address := (inet_pton AddressFamily.AF_INET (input.data ++ after) result.address).2,
            mask := 32 } ∨
        (IPAddress.TryParse input after result).result =
          { type := IPAddressType.IP_ADDRESS_V6,
            address := (inet_pton AddressFamily.AF_INET6 (input.data ++ after) result.address).2,
            mask := 128 }))) ∧
    (Char.ofNat 0 ∉ input.data → (IPAddress.TryParse input after result).result = result) := by
  constructor
  · rcases TryParse_cases input after result with
      ⟨_, _, e⟩ | ⟨b, h4, e⟩ | ⟨b, h4, h6, e⟩
    · left
      rw [e]
      exact ⟨rfl, rfl⟩
    · right
      rw [e] at h ⊢
      rcases TryParse_mask_cases input
        { type := IPAddressType.IP_ADDRESS_V4, address := b ++ result.address.drop 4,
          mask := 32 } with e2 | e2 | e2 | ⟨mask, _, e2⟩ <;> rw [e2] at h ⊢
      · simp at h
      · exact ⟨Or.inl rfl, Or.inl (by simp [inet_pton, h4])⟩
      · exact ⟨Or.inr rfl, Or.inl (by simp [inet_pton, h4])⟩
      · simp at h
    · right
      rw [e] at h ⊢
      rcases TryParse_mask_cases input
        { type := IPAddressType.IP_ADDRESS_V6, address := b ++ result.address.drop 16,
          mask := 128 } with e2 | e2 | e2 | ⟨mask, _, e2⟩ <;> rw [e2] at h ⊢
      · simp at h
      · exact ⟨Or.inl rfl, Or.inr (by simp [inet_pton, h6])⟩
      · exact ⟨Or.inr rfl, Or.inr (by simp [inet_pton, h6])⟩
      · simp at h
  · intro hnul
    rcases TryParse_no_nul_cases input after result hnul with e | ⟨b, _, e⟩ | ⟨b, _, _, e⟩
    · rw [e]
    · rw [e] at h; simp at h
    · rw [e] at h; simp at h

theorem TryParse_failed_result_witness :
    (IPAddress.TryParse "10.0.0.1/33" []
      (IPAddress.FromIPv6 (List.replicate 16 7) 64)).ret = false ∧
    (IPAddress.TryParse "10.0.0.1/33" []
      (IPAddress.FromIPv6 (List.replicate 16 7) 64)).result =
      IPAddress.FromIPv6 (List.replicate 16 7) 64 :=
  ⟨by decide,
   (TryParse_failed_result "10.0.0.1/33" [] (IPAddress.FromIPv6 (List.replicate 16 7) 64)
      (by decide)).2 (by decide)⟩

/-- C13: after a successful `TryParse` the mask is at most 32 when the family
is V4 and at most 128 when the family is V6, whatever follows the text in
memory. -/
theorem TryParse_mask_within_width (input : String) (after : List Char)
    (result : IPAddress)
    (h : (IPAddress.TryParse input after result).ret = true) :
    ((IPAddress.TryParse input after result).result.type = IPAddressType.IP_ADDRESS_V4 →
      (IPAddress.TryParse input after result).result.mask ≤ 32) ∧
    ((IPAddress.TryParse input after result).result.type = IPAddressType.IP_ADDRESS_V6 →
      (IPAddress.TryParse input after result).result.mask ≤ 128) := by
  rcases TryParse_true_shape input after result h with ⟨ht, hm⟩ | ⟨ht, hm⟩
  · refine ⟨fun _ => hm, fun h6 => ?_⟩
    rw [ht] at h6
    cases h6
  · refine ⟨fun h4 => ?_, fun _ => hm⟩
    rw [ht] at h4
    cases h4

theorem TryParse_mask_within_width_witness :
    (IPAddress.TryParse "1.2.3.4\x00/24" []
        (IPAddress.IPAddress_default (List.replicate 16 0) 0)).ret = true ∧
    (IPAddress.TryParse "1.2.3.4\x00/24" []
        (IPAddress.IPAddress_default (List.replicate 16 0) 0)).result.type =
      IPAddressType.IP_ADDRESS_V4 ∧
    (IPAddress.TryParse "1.2.3.4\x00/24" []
        (IPAddress.IPAddress_default (List.replicate 16 0) 0)).result.mask ≤ 32 :=
  ⟨by decide, by decide,
   (TryParse_mask_within_width "1.2.3.4\x00/24" []
      (IPAddress.IPAddress_default (List.replicate 16 0) 0) (by decide)).1 (by decide)⟩

/-- C14: the default constructed value has family Invalid; a successful
`TryParse` (on any prior result), a returning `FromString` (both whatever
follows the text in memory), `FromIPv4` and `FromIPv6` all give family V4 or
V6. -/
theorem family_never_invalid (input input2 : String) (after after2 : List Char)
    (result : IPAddress)
    (address0 address : List Nat) (mask0 mask : Nat) (raw : Int) (v : IPAddress)
    (h1 : (IPAddress.TryParse input after result).ret = true)
    (h2 : IPAddress.FromString input2 after2 address0 mask0 = Except.ok v) :
    (IPAddress.IPAddress_default address0 mask0).type = IPAddressType.IP_ADDRESS_INVALID ∧
    ((IPAddress.TryParse input after result).result.type = IPAddressType.IP_ADDRESS_V4 ∨
      (IPAddress.TryParse input after result).result.type = IPAddressType.IP_ADDRESS_V6) ∧
    (v.type = IPAddressType.IP_ADDRESS_V4 ∨ v.type = IPAddressType.IP_ADDRESS_V6) ∧
    (IPAddress.FromIPv4 raw mask).type = IPAddressType.IP_ADDRESS_V4 ∧
    (IPAddress.FromIPv6 address mask).type = IPAddressType.IP_ADDRESS_V6 := by
  refine ⟨rfl, ?_, ?_, rfl, rfl⟩
  · rcases TryParse_true_shape input after result h1 with ⟨ht, _⟩ | ⟨ht, _⟩
    · exact Or.inl ht
    · exact Or.inr ht
  · cases hr : (IPAddress.TryParse input2 after2 (IPAddress.IPAddress_default address0 mask0)).ret
    · simp [IPAddress.FromString, hr] at h2
    · simp only [IPAddress.FromString, hr] at h2
      simp only [Bool.true_eq_false, if_false, Except.ok.injEq] at h2
      subst h2
      rcases TryParse_true_shape input2 after2 _ hr with ⟨ht, _⟩ | ⟨ht, _⟩
      · exact Or.inl ht
      · exact Or.inr ht

theorem family_never_invalid_witness :
    ((IPAddress.TryParse "10.0.0.1" [] (IPAddress.FromIPv6 (List.replicate 16 255) 7)).ret = true ∧
      IPAddress.FromString "::1" [] [] 0 = Except.ok
        { type := IPAddressType.IP_ADDRESS_V6,
          address := [0, 0, 0, 0, 0, 0, 0, 0, 0, 0, 0, 0, 0, 0, 0, 1], mask := 128 }) ∧
    (IPAddress.TryParse "10.0.0.1" [] (IPAddress.FromIPv6 (List.replicate 16 255) 7)).result.type =
      IPAddressType.IP_ADDRESS_V4 :=
  ⟨⟨by decide, rfl⟩,
   ((family_never_invalid "10.0.0.1" "::1" [] [] (IPAddress.FromIPv6 (List.replicate 16 255) 7)
      [] [] 0 0 0
      { type := IPAddressType.IP_ADDRESS_V6,
        address := [0, 0, 0, 0, 0, 0, 0, 0, 0, 0, 0, 0, 0, 0, 0, 1], mask := 128 }
      (by decide) rfl).2.1).resolve_right (by decide)⟩

/-- C15: `FromIPv4` gives family V4, `FromIPv6` family V6; the mask is the
argument as given, with no range check (200 stays 200), and the address is
the raw argument: for `FromIPv4` the `int32_t` converted to `hugeint_t`, whose
value is the argument's, for `FromIPv6` the `hugeint_t` itself. -/
theorem FromIPv4_FromIPv6_store_arguments (raw : Int) (raw6 : List Nat) (m : Nat)
    (h1 : -2147483648 ≤ raw) (h2 : raw < 2147483648) :
    IPAddress.FromIPv4 raw m =
      { type := IPAddressType.IP_ADDRESS_V4, address := hugeint_t_of_int raw, mask := m } ∧
    hugeint_value (IPAddress.FromIPv4 raw m).address = raw ∧
    IPAddress.FromIPv6 raw6 m =
      { type := IPAddressType.IP_ADDRESS_V6, address := raw6, mask := m } ∧
    (IPAddress.FromIPv4 raw 200).mask = 200 ∧ (IPAddress.FromIPv6 raw6 200).mask = 200 := by
  refine ⟨rfl, ?_, rfl, rfl, rfl⟩
  exact hugeint_value_of_int raw (by norm_num; omega) (by norm_num; omega)

theorem FromIPv4_FromIPv6_store_arguments_witness :
    ((-2147483648 : Int) ≤ 3232235777 - 4294967296 ∧
      (3232235777 - 4294967296 : Int) < 2147483648) ∧
    hugeint_value (IPAddress.FromIPv4 (3232235777 - 4294967296) 200).address =
      3232235777 - 4294967296 ∧
    (IPAddress.FromIPv4 (3232235777 - 4294967296) 200).mask = 200 :=
  ⟨⟨by decide, by decide⟩,
   (FromIPv4_FromIPv6_store_arguments (3232235777 - 4294967296) (List.replicate 16 0) 200
      (by decide) (by decide)).2.1,
   (FromIPv4_FromIPv6_store_arguments (3232235777 - 4294967296) (List.replicate 16 0) 200
      (by decide) (by decide)).2.2.2.1⟩

/-- C16 (as stated, refuted): for the raw address -1 (255.255.255.255 as a
signed 32-bit integer) the low 32 bits of the address field hold the raw
address, but the upper 96 bits are all ones, not zero. -/
theorem FromIPv4_negative_upper_bits :
    hugeint_bits (IPAddress.FromIPv4 (-1) 32).address % 2 ^ 32 = 2 ^ 32 - 1 ∧
    hugeint_bits (IPAddress.FromIPv4 (-1) 32).address / 2 ^ 32 = 2 ^ 96 - 1 ∧
    hugeint_bits (IPAddress.FromIPv4 (-1) 32).address / 2 ^ 32 ≠ 0 := by
  refine ⟨?_, ?_, ?_⟩ <;> decide

/-- C16 (amended): for every 32-bit raw address `FromIPv4` holds the raw
address in the low-order 32 bits of the address field; the upper 96 bits are
zero when the raw address is not negative and all ones when it is negative
(the `int32_t` is sign-extended to 128 bits). -/
theorem FromIPv4_bits (raw : Int) (m : Nat)
    (h1 : -2147483648 ≤ raw) (h2 : raw < 2147483648) :
    ((hugeint_bits (IPAddress.FromIPv4 raw m).address % 2 ^ 32 : Nat) : Int) =
      raw % 4294967296 ∧
    (0 ≤ raw → hugeint_bits (IPAddress.FromIPv4 raw m).address / 2 ^ 32 = 0) ∧
    (raw < 0 → hugeint_bits (IPAddress.FromIPv4 raw m).address / 2 ^ 32 = 2 ^ 96 - 1) := by
  have hb := hugeint_bits_of_int raw
  show ((hugeint_bits (hugeint_t_of_int raw) % 2 ^ 32 : Nat) : Int) = _ ∧
    (0 ≤ raw → hugeint_bits (hugeint_t_of_int raw) / 2 ^ 32 = 0) ∧
    (raw < 0 → hugeint_bits (hugeint_t_of_int raw) / 2 ^ 32 = 2 ^ 96 - 1)
  norm_num at hb ⊢
  refine ⟨by omega, fun h => by omega, fun h => by omega⟩

theorem FromIPv4_bits_witness :
    (((-2147483648 : Int) ≤ 16909060 ∧ (16909060 : Int) < 2147483648 ∧ (0 : Int) ≤ 16909060) ∧
      hugeint_bits (IPAddress.FromIPv4 16909060 24).address / 2 ^ 32 = 0) ∧
    (((-2147483648 : Int) ≤ -1 ∧ (-1 : Int) < 2147483648 ∧ (-1 : Int) < 0) ∧
      hugeint_bits (IPAddress.FromIPv4 (-1) 32).address / 2 ^ 32 = 2 ^ 96 - 1) :=
  ⟨⟨⟨by decide, by decide, by decide⟩,
    (FromIPv4_bits 16909060 24 (by decide) (by decide)).2.1 (by decide)⟩,
   ⟨⟨by decide, by decide, by decide⟩,
    (FromIPv4_bits (-1) 32 (by decide) (by decide)).2.2 (by decide)⟩⟩

/-- C17: parsing `1.2.3.4` (with a NUL behind it in memory) into a result
whose address bytes were all 0 and into one whose address bytes were all 170
succeeds both times with family V4 and mask 32, but the two 128-bit addresses
differ: only the first four bytes are written, the other twelve keep the prior
content. -/
theorem TryParse_address_depends_on_prior :
    IPAddress.TryParse "1.2.3.4" [] (IPAddress.IPAddress_default (List.replicate 16 0) 0) =
      { ret := true,
        result := { type := IPAddressType.IP_ADDRESS_V4,
                    address := [1, 2, 3, 4, 0, 0, 0, 0, 0, 0, 0, 0, 0, 0, 0, 0], mask := 32 },
        error_message := none } ∧
    IPAddress.TryParse "1.2.3.4" [] (IPAddress.IPAddress_default (List.replicate 16 170) 0) =
      { ret := true,
        result := { type := IPAddressType.IP_ADDRESS_V4,
                    address := [1, 2, 3, 4, 170, 170, 170, 170, 170, 170, 170, 170, 170, 170,
                                170, 170], mask := 32 },
        error_message := none } ∧
    (IPAddress.TryParse "1.2.3.4" []
        (IPAddress.IPAddress_default (List.replicate 16 0) 0)).result.address ≠
      (IPAddress.TryParse "1.2.3.4" []
        (IPAddress.IPAddress_default (List.replicate 16 170) 0)).result.address := by
  refine ⟨?_, ?_, ?_⟩ <;> decide

/-- C18 (as stated, refuted): the valid IPv6 text `::ffff:102:304`, with a
NUL behind it in memory, is parsed
to the address with groups 0, 0, 0, 0, 0, ffff, 102, 304, whose compressed
lowercase hex form is `::ffff:102:304`; `ToString` gives `::ffff:1.2.3.4`,
with a dotted-decimal tail. -/
theorem ToString_dotted_tail_example :
    IPAddress.FromString "::ffff:102:304" [] [] 0 = Except.ok
      { type := IPAddressType.IP_ADDRESS_V6,
        address := [0, 0, 0, 0, 0, 0, 0, 0, 0, 0, 255, 255, 1, 2, 3, 4], mask := 128 } ∧
    IPAddress.ToString
      { type := IPAddressType.IP_ADDRESS_V6,
        address := [0, 0, 0, 0, 0, 0, 0, 0, 0, 0, 255, 255, 1, 2, 3, 4], mask := 128 } =
      "::ffff:1.2.3.4" ∧
    String.mk (spec_canonical_ipv6
      (words_of [0, 0, 0, 0, 0, 0, 0, 0, 0, 0, 255, 255, 1, 2, 3, 4])) = "::ffff:102:304" ∧
    IPAddress.ToString
      { type := IPAddressType.IP_ADDRESS_V6,
        address := [0, 0, 0, 0, 0, 0, 0, 0, 0, 0, 255, 255, 1, 2, 3, 4], mask := 128 } ≠
      String.mk (spec_canonical_ipv6
        (words_of [0, 0, 0, 0, 0, 0, 0, 0, 0, 0, 255, 255, 1, 2, 3, 4])) := by
  refine ⟨rfl, ?_, ?_, ?_⟩ <;> decide

/-- C18 (amended): where a NUL follows the text in memory, the text
`2001:0db8:0000:0000:0000:0000:0000:0001` comes back from `FromString` and
`ToString` as `2001:db8::1`; and for every text `inet_pton6` accepts,
`ToString` of the parsed value is the canonical compressed form of the parsed
address (lowercase hex, no leading zeros in a group, the first longest run of
two or more zero groups written `::`), except that an address led by exactly
six zero groups, or by exactly five zero groups and the group `ffff`, is
written as `::` resp. `::ffff:` followed by its last four bytes in dotted
decimal. -/
theorem ToString_ipv6_canonical (text after : List Char) (b address0 : List Nat) (mask0 : Nat)
    (h : inet_pton6 text = some b) (hterm : c_str after = []) :
    (∃ v, IPAddress.FromString "2001:0db8:0000:0000:0000:0000:0000:0001" after address0 mask0 =
        Except.ok v ∧ v.ToString = "2001:db8::1") ∧
    (∃ v, IPAddress.FromString (String.mk text) after address0 mask0 = Except.ok v ∧
      v.type = IPAddressType.IP_ADDRESS_V6 ∧ v.address = b ++ address0.drop 16 ∧
      v.ToString = String.mk
        (if zero_run_length (words_of b) = 6 then ':' :: ':' :: inet_ntop4 (b.drop 12)
         else if zero_run_length (words_of b) = 5 ∧ (words_of b).getD 5 0 = 65535 then
           ':' :: ':' :: 'f' :: 'f' :: 'f' :: 'f' :: ':' :: inet_ntop4 (b.drop 12)
         else spec_canonical_ipv6 (words_of b))) := by
  constructor
  · refine ⟨_, FromString_of_ipv6 "2001:0db8:0000:0000:0000:0000:0000:0001".data after
      [32, 1, 13, 184, 0, 0, 0, 0, 0, 0, 0, 0, 0, 0, 0, 1] address0 mask0
      (by decide) (by decide) hterm, ?_⟩
    rw [ToString_v6, if_neg (by simp), inet_ntop6_append _ _ (by decide) (by decide)]
    decide
  · have h4 : inet_pton4 text = none := by
      cases h4 : inet_pton4 text with
      | none => rfl
      | some b4 =>
        have := inet_pton_disjoint _ _ h4
        rw [h] at this
        cases this
    obtain ⟨hl, hb⟩ := inet_pton6_shape _ _ h
    refine ⟨_, FromString_of_ipv6 text after b address0 mask0 h4 h hterm, rfl, rfl, ?_⟩
    rw [ToString_v6, if_neg (by simp), inet_ntop6_append _ _ hl hb, inet_ntop6_canonical]

theorem ToString_ipv6_canonical_witness :
    (inet_pton6 "1:0:0:2:0:0:0:3".data =
        some [0, 1, 0, 0, 0, 0, 0, 2, 0, 0, 0, 0, 0, 0, 0, 3] ∧
      c_str [Char.ofNat 0, 'x'] = []) ∧
    (∃ v, IPAddress.FromString "2001:0db8:0000:0000:0000:0000:0000:0001" [Char.ofNat 0, 'x']
        [] 0 = Except.ok v ∧ v.ToString = "2001:db8::1") ∧
    (∃ v, IPAddress.FromString "1:0:0:2:0:0:0:3" [Char.ofNat 0, 'x'] [] 0 = Except.ok v ∧
      v.ToString = "1:0:0:2::3") :=
  ⟨⟨by decide, by decide⟩,
   (ToString_ipv6_canonical "1:0:0:2:0:0:0:3".data [Char.ofNat 0, 'x']
      [0, 1, 0, 0, 0, 0, 0, 2, 0, 0, 0, 0, 0, 0, 0, 3] [] 0 (by decide) (by decide)).1,
   by
     obtain ⟨v, h1, _, _, h2⟩ := (ToString_ipv6_canonical "1:0:0:2:0:0:0:3".data
       [Char.ofNat 0, 'x'] [0, 1, 0, 0, 0, 0, 0, 2, 0, 0, 0, 0, 0, 0, 0, 3] [] 0
       (by decide) (by decide)).2
     exact ⟨v, h1, h2.trans (by decide)⟩⟩

/-- C19: the address texts `192.168.1.1` and `::1` are accepted on their own
(with a NUL behind them in memory), and in `192.168.1.1/256` and `::1/1000`
the `/` is followed only by decimal digits denoting a number above 255; on
these two texts `TryParse` fails, whatever follows them in memory, in the
address step and with the address message, not with the mask syntax message:
`inet_pton` is given the whole text, suffix included, and the 8-bit cast is
never reached. -/
theorem TryParse_mask_256_address_message (after : List Char) (result : IPAddress) :
    (IPAddress.TryParse "192.168.1.1" [] result).ret = true ∧
    (IPAddress.TryParse "::1" [] result).ret = true ∧
    IPAddress.TryParse "192.168.1.1/256" after result =
      { ret := false, result := result,
        error_message := some
          "Failed to convert string \"192.168.1.1/256\" to inet: Failed to parse IP address" } ∧
    IPAddress.TryParse "::1/1000" after result =
      { ret := false, result := result,
        error_message := some
          "Failed to convert string \"::1/1000\" to inet: Failed to parse IP address" } ∧
    (IPAddress.TryParse "192.168.1.1/256" after result).error_message ≠ some
      "Failed to convert string \"192.168.1.1/256\" to inet: Faied to parse IP network mask" ∧
    (IPAddress.TryParse "::1/1000" after result).error_message ≠ some
      "Failed to convert string \"::1/1000\" to inet: Faied to parse IP network mask" := by
  have h1 := TryParse_slash_no_nul_rejected "192.168.1.1/256" after result (by decide) (by decide)
  have h2 := TryParse_slash_no_nul_rejected "::1/1000" after result (by decide) (by decide)
  refine ⟨?_, ?_, h1, h2, ?_, ?_⟩
  · rw [TryParse_v4 "192.168.1.1" [] result [192, 168, 1, 1] (by decide),
      TryParse_mask_no_slash _ _ (by decide)]
  · rw [TryParse_v6 "::1" [] result [0, 0, 0, 0, 0, 0, 0, 0, 0, 0, 0, 0, 0, 0, 0, 1]
        (by decide) (by decide),
      TryParse_mask_no_slash _ _ (by decide)]
  · rw [h1]; dsimp only; decide
  · rw [h2]; dsimp only; decide

/-- C20 (as stated, refuted): the text `1.2.3.4`, a NUL character, `/24`
contains a `/`, and `TryParse` accepts it with mask 24, not the V4 default
32: `inet_pton` reads the text as a C string and never sees the `/`. -/
theorem TryParse_slash_after_nul_accepted :
    '/' ∈ "1.2.3.4\x00/24".data ∧
    IPAddress.TryParse "1.2.3.4\x00/24" []
        (IPAddress.IPAddress_default (List.replicate 16 0) 0) =
      { ret := true,
        result := { type := IPAddressType.IP_ADDRESS_V4,
                    address := [1, 2, 3, 4, 0, 0, 0, 0, 0, 0, 0, 0, 0, 0, 0, 0], mask := 24 },
        error_message := none } := by
  constructor <;> decide

/-- C20 (amended): `TryParse` hands the whole text to `inet_pton`; when a `/`
stands before the first NUL character of the text, in particular when the
text holds a `/` and no NUL character, `TryParse` fails in the address step
with the address message and leaves the result alone; and every successful
`TryParse` of a text without NUL characters has the family default mask, 32
for V4 and 128 for V6. This holds whatever follows the text in memory. -/
theorem TryParse_slash_fails_in_address_step (input : String) (after : List Char)
    (result : IPAddress) :
    ('/' ∈ c_str input.data →
      IPAddress.TryParse input after result =
        { ret := false, result := result,
          error_message := some ("Failed to convert string \"" ++ input ++
            "\" to inet: Failed to parse IP address") }) ∧
    (Char.ofNat 0 ∉ input.data → '/' ∈ input.data →
      IPAddress.TryParse input after result =
        { ret := false, result := result,
          error_message := some ("Failed to convert string \"" ++ input ++
            "\" to inet: Failed to parse IP address") }) ∧
    (Char.ofNat 0 ∉ input.data → (IPAddress.TryParse input after result).ret = true →
      ((IPAddress.TryParse input after result).result.type = IPAddressType.IP_ADDRESS_V4 ∧
        (IPAddress.TryParse input after result).result.mask = 32) ∨
      ((IPAddress.TryParse input after result).result.type = IPAddressType.IP_ADDRESS_V6 ∧
        (IPAddress.TryParse input after result).result.mask = 128)) := by
  refine ⟨TryParse_slash_rejected input after result, ?_, ?_⟩
  · intro hnul hs
    exact TryParse_slash_no_nul_rejected input after result hnul hs
  · intro hnul h
    rcases TryParse_no_nul_cases input after result hnul with e | ⟨b, _, e⟩ | ⟨b, _, _, e⟩
    · rw [e] at h; simp at h
    · rw [e]; exact Or.inl ⟨rfl, rfl⟩
    · rw [e]; exact Or.inr ⟨rfl, rfl⟩

theorem TryParse_slash_fails_in_address_step_witness :
    (Char.ofNat 0 ∉ "192.168.1.1/24".data ∧ '/' ∈ "192.168.1.1/24".data) ∧
    IPAddress.TryParse "192.168.1.1/24" []
        (IPAddress.IPAddress_default (List.replicate 16 0) 0) =
      { ret := false, result := IPAddress.IPAddress_default (List.replicate 16 0) 0,
        error_message := some
          "Failed to convert string \"192.168.1.1/24\" to inet: Failed to parse IP address" } :=
  ⟨⟨by decide, by decide⟩,
   (TryParse_slash_fails_in_address_step "192.168.1.1/24" []
      (IPAddress.IPAddress_default (List.replicate 16 0) 0)).2.1 (by decide) (by decide)⟩

end duckdb
